import Mathlib

/-!
Verification development for the conversation-correlation engine of the
koishi-plugin-mcl-grouptool repository.

The embedding below is a shallow model of the two implementations of the
engine found in the source:
  * `src/services/FileRecordService.ts` (the class `FileRecordService`
    together with its private `FileManager`), modelled in the `FRec`
    definitions, and
  * the older variant living directly in `src/index.ts`
    (`recordMessage`, `flushCachedMessagesForFile`,
    `associateUnlinkedCacheMessages`, `cleanupExpiredCache`), modelled in
    the `Idx` definitions.

Conventions of the embedding:
  * JavaScript objects and `Map`s become association lists
    `List (String × α)`; `obj[k] = v` / `Map.set` is `setA` (update in
    place, append new keys at the end, matching JS key-insertion order),
    `delete obj[k]` / `Map.delete` is `eraseA`, property access is
    `lookupA`.
  * `Date.now()` timestamps are `Nat` values passed explicitly (`now`).
  * The data directory on disk is a `List String` of file names; a
    successful download or record write conses the name onto it.
  * Asynchronous downloads are an oracle: either a single `Bool`
    (success of the one artifact fetch of `_processAndRecordFile`) or a
    function `String → Bool` from the URL of an inline image to the
    success of its fetch.  The list of download targets attempted during
    a call is returned explicitly so that "no redundant download" is a
    statement of the model.
  * The awaited refetch of a historic message (`session.onebot.getMsg`)
    is an oracle `String → Option QFile` from the message id to the file
    payload of the fetched message, `none` when the call throws or the
    message has no file element.
  * Timers (`setTimeout` handles) are not part of the state; the bodies
    of the timer callbacks (`cleanupStaleConversations`,
    `cleanupExpiredCache`) are modelled as explicit functions of `now`.
-/

/-! ### Association-list primitives (JS object / Map semantics) -/

/-- First-match lookup, `obj[k]` / `Map.get`. -/
def lookupA {α : Type} (l : List (String × α)) (k : String) : Option α :=
  match l with
  | [] => none
  | p :: rest => if p.1 = k then some p.2 else lookupA rest k

/-- `obj[k] = v` / `Map.set`: replace in place if the key exists, else append. -/
def setA {α : Type} (l : List (String × α)) (k : String) (v : α) : List (String × α) :=
  match l with
  | [] => [(k, v)]
  | p :: rest => if p.1 = k then (k, v) :: rest else p :: setA rest k v

/-- `delete obj[k]` / `Map.delete`: drop the first entry with the key. -/
def eraseA {α : Type} (l : List (String × α)) (k : String) : List (String × α) :=
  match l with
  | [] => []
  | p :: rest => if p.1 = k then rest else p :: eraseA rest k

/-- Apply `f` to every value stored under `k` (used to model
read-modify-write of a record file). -/
def adjustA {α : Type} (l : List (String × α)) (k : String) (f : α → α) : List (String × α) :=
  l.map (fun p => if p.1 = k then (p.1, f p.2) else p)

theorem lookupA_setA_self {α : Type} (l : List (String × α)) (k : String) (v : α) :
    lookupA (setA l k v) k = some v := by
  induction l with
  | nil => simp [setA, lookupA]
  | cons p rest ih =>
    by_cases h : p.1 = k
    · simp [setA, h, lookupA]
    · simp [setA, h, lookupA, ih]

theorem lookupA_setA_ne {α : Type} (l : List (String × α)) (k k' : String) (v : α)
    (h : k' ≠ k) : lookupA (setA l k v) k' = lookupA l k' := by
  have hkk : ¬ (k = k') := fun hh => h hh.symm
  induction l with
  | nil => simp [setA, lookupA, hkk]
  | cons p rest ih =>
    by_cases hp : p.1 = k
    · simp [setA, hp, lookupA, hkk]
    · simp [setA, hp, lookupA, ih]

theorem eraseA_setA {α : Type} (l : List (String × α)) (k : String) (v : α) :
    eraseA (setA l k v) k = eraseA l k := by
  induction l with
  | nil => simp [setA, eraseA]
  | cons p rest ih =>
    by_cases h : p.1 = k
    · simp [setA, h, eraseA]
    · simp [setA, h, eraseA, ih]

theorem eraseA_of_lookupA_none {α : Type} (l : List (String × α)) (k : String)
    (h : lookupA l k = none) : eraseA l k = l := by
  induction l with
  | nil => simp [eraseA]
  | cons p rest ih =>
    by_cases hp : p.1 = k
    · simp [lookupA, hp] at h
    · simp [lookupA, hp] at h
      simp [eraseA, hp, ih h]

theorem lookupA_eq_none_iff {α : Type} (l : List (String × α)) (k : String) :
    lookupA l k = none ↔ k ∉ l.map Prod.fst := by
  induction l with
  | nil => simp [lookupA]
  | cons p rest ih =>
    by_cases hp : p.1 = k
    · simp [lookupA, hp]
    · simp only [lookupA, if_neg hp, List.map_cons, List.mem_cons, ih]
      constructor
      · intro hk hc
        rcases hc with hc | hc
        · exact hp hc.symm
        · exact hk hc
      · intro hk hc
        exact hk (Or.inr hc)

theorem lookupA_eraseA_self {α : Type} (l : List (String × α)) (k : String)
    (h : (l.map Prod.fst).Nodup) : lookupA (eraseA l k) k = none := by
  induction l with
  | nil => simp [eraseA, lookupA]
  | cons p rest ih =>
    simp only [List.map_cons, List.nodup_cons] at h
    by_cases hp : p.1 = k
    · simp only [eraseA, if_pos hp]
      rw [lookupA_eq_none_iff]
      exact hp ▸ h.1
    · simp [eraseA, hp, lookupA, ih h.2]

theorem mem_map_fst_setA {α : Type} (l : List (String × α)) (k x : String) (v : α)
    (h : x ∈ (setA l k v).map Prod.fst) : x = k ∨ x ∈ l.map Prod.fst := by
  induction l with
  | nil => simpa [setA] using h
  | cons p rest ih =>
    by_cases hp : p.1 = k
    · simp only [setA, if_pos hp, List.map_cons, List.mem_cons] at h
      rcases h with h | h
      · exact Or.inl h
      · exact Or.inr (by rw [List.map_cons]; exact List.mem_cons_of_mem _ h)
    · simp only [setA, if_neg hp, List.map_cons, List.mem_cons] at h
      rcases h with h | h
      · exact Or.inr (by rw [List.map_cons, h]; exact List.mem_cons_self _ _)
      · rcases ih h with h1 | h1
        · exact Or.inl h1
        · exact Or.inr (by rw [List.map_cons]; exact List.mem_cons_of_mem _ h1)

theorem nodup_keys_setA {α : Type} (l : List (String × α)) (k : String) (v : α)
    (h : (l.map Prod.fst).Nodup) : ((setA l k v).map Prod.fst).Nodup := by
  induction l with
  | nil => simp [setA]
  | cons p rest ih =>
    simp only [List.map_cons, List.nodup_cons] at h
    by_cases hp : p.1 = k
    · simp only [setA, if_pos hp, List.map_cons, List.nodup_cons]
      exact ⟨hp ▸ h.1, h.2⟩
    · simp only [setA, if_neg hp, List.map_cons, List.nodup_cons]
      refine ⟨fun hm => ?_, ih h.2⟩
      rcases mem_map_fst_setA rest k p.1 v hm with h1 | h1
      · exact hp h1
      · exact h.1 h1

theorem mem_map_fst_eraseA {α : Type} (l : List (String × α)) (k x : String)
    (h : x ∈ (eraseA l k).map Prod.fst) : x ∈ l.map Prod.fst := by
  induction l with
  | nil => simp [eraseA] at h
  | cons p rest ih =>
    by_cases hp : p.1 = k
    · simp only [eraseA, if_pos hp] at h
      rw [List.map_cons]
      exact List.mem_cons_of_mem _ h
    · simp only [eraseA, if_neg hp, List.map_cons, List.mem_cons] at h
      rcases h with h | h
      · rw [List.map_cons, h]
        exact List.mem_cons_self _ _
      · rw [List.map_cons]
        exact List.mem_cons_of_mem _ (ih h)

theorem nodup_keys_eraseA {α : Type} (l : List (String × α)) (k : String)
    (h : (l.map Prod.fst).Nodup) : ((eraseA l k).map Prod.fst).Nodup := by
  induction l with
  | nil => simp [eraseA]
  | cons p rest ih =>
    simp only [List.map_cons, List.nodup_cons] at h
    by_cases hp : p.1 = k
    · simp only [eraseA, if_pos hp]
      exact h.2
    · simp only [eraseA, if_neg hp, List.map_cons, List.nodup_cons]
      exact ⟨fun hm => h.1 (mem_map_fst_eraseA rest k p.1 hm), ih h.2⟩

theorem lookupA_adjustA_self {α : Type} (l : List (String × α)) (k : String) (f : α → α) :
    lookupA (adjustA l k f) k = (lookupA l k).map f := by
  induction l with
  | nil => simp [adjustA, lookupA]
  | cons p rest ih =>
    by_cases hp : p.1 = k
    · simp [adjustA, lookupA, hp]
    · simpa [adjustA, lookupA, hp] using ih

theorem lookupA_adjustA_ne {α : Type} (l : List (String × α)) (k k' : String) (f : α → α)
    (h : k' ≠ k) : lookupA (adjustA l k f) k' = lookupA l k' := by
  have hkk : ¬ (k = k') := fun hh => h hh.symm
  induction l with
  | nil => simp [adjustA, lookupA]
  | cons p rest ih =>
    simp only [adjustA] at ih
    by_cases hp : p.1 = k
    · have hne : ¬ p.1 = k' := by rw [hp]; exact hkk
      simp only [adjustA, List.map_cons, if_pos hp, lookupA, if_neg hne]
      exact ih
    · simp only [adjustA, List.map_cons, if_neg hp, lookupA]
      by_cases hq : p.1 = k'
      · rw [if_pos hq, if_pos hq]
      · rw [if_neg hq, if_neg hq]
        exact ih

/-! ### String helpers mirroring the JS string idioms of the source -/

/-- Characters after the last `'.'` of the list, if any dot occurs, paired
with the characters before it. -/
def splitExtAux : List Char → Option (List Char × List Char)
  | [] => none
  | c :: rest =>
    match splitExtAux rest with
    | some (b, a) => some (c :: b, a)
    | none => if c = '.' then some ([], rest) else none

/-- JS `s.substring(s.lastIndexOf('.'))`: the extension including the dot,
or the whole string when there is no dot (`lastIndexOf` is `-1` and a
negative start is clamped to `0`). -/
def jsExtOf (s : String) : String :=
  match splitExtAux s.data with
  | some (_, a) => String.mk ('.' :: a)
  | none => s

/-- Node `path.parse` on a plain base name: `name` and `ext` split at the
last dot, except that a dot in first position yields an empty `ext`. -/
def splitNameExt (s : String) : String × String :=
  match splitExtAux s.data with
  | some ([], _) => (s, "")
  | some (b, a) => (String.mk b, String.mk ('.' :: a))
  | none => (s, "")

/-- JS `s.substring(0, i)` / `s.substring(i)` at `i = s.lastIndexOf('.')`
(used by the inline-image branch of `recordMessage` in `index.ts`; with no
dot, `substring(0, -1)` is `""` and `substring(-1)` is `s`). -/
def splitAtLastDotJs (s : String) : String × String :=
  match splitExtAux s.data with
  | some (b, a) => (String.mk b, String.mk ('.' :: a))
  | none => ("", s)

/-- JS `toLowerCase`, modelled character-wise with `Char.toLower`. -/
def jsToLower (s : String) : String := String.mk (s.data.map Char.toLower)

/-- White space as recognised by JS `String.prototype.trim`. -/
def jsIsWhitespace (c : Char) : Bool :=
  c = ' ' || c = '\t' || c = '\n' || c = '\r' || c = '\x0b' || c = '\x0c'

/-- JS `trim`: strip leading and trailing whitespace. -/
def jsTrim (s : String) : String :=
  String.mk (((s.data.dropWhile jsIsWhitespace).reverse.dropWhile jsIsWhitespace).reverse)

/-- Truthiness of an optional JS string: `undefined` and `""` are falsy. -/
def truthyStr : Option String → Option String
  | some s => if s = "" then none else some s
  | none => none

/-! ### Shared configuration and constants -/

/-- The slice of the plugin `Config` that the correlation engine reads. -/
structure Config where
  whitelist : List String
  additionalGroups : List String
deriving DecidableEq

/-- `src/utils.ts`: `config.whitelist?.includes(userId) ?? false`. -/
def isUserWhitelisted (userId : String) (config : Config) : Bool :=
  config.whitelist.contains userId

/-- One transcript entry (`MessageRecord` in both source files). -/
structure MessageRecord where
  content : String
  userId : String
deriving DecidableEq

def ALLOWED_EXTENSIONS : List String := [".zip", ".log", ".txt", ".json", ".gz", ".xz"]

def ALLOWED_IMAGE_EXTENSIONS : List String := [".jpg", ".jpeg", ".png"]

/-- `CONVERSATION_TIMEOUT` of `FileRecordService.ts`: `5 * 60 * 1000` ms. -/
def CONVERSATION_TIMEOUT : Nat := 5 * 60 * 1000

/-- `AMBIGUOUS_MESSAGE_PREFIX` of `FileRecordService.ts` (renamed here). -/
def AMBIGUOUS_MESSAGE_MARKER : String := "[交叉对话] "

/-- `UPLOADER_MESSAGE_WINDOW` of `index.ts`: `5 * 60 * 1000` ms. -/
def UPLOADER_MESSAGE_WINDOW : Nat := 5 * 60 * 1000

/-! ### Model of `src/services/FileRecordService.ts` -/

/-- The on-disk JSON written by `FileManager.createNewRecord` (the
`uploadTime` ISO string is modelled as the `Nat` clock value). -/
structure RecordFile where
  uploaderId : String
  channelId : String
  uploadTime : Nat
  messages : List MessageRecord
deriving DecidableEq

/-- The mutable state of a `FileRecordService` instance together with the
data directory it writes through its `FileManager`. -/
structure FRState where
  /-- `fileIndex`: `(fileName + "_" + fileSize)` to record id. -/
  fileIndex : List (String × String)
  /-- `userActiveFile`: user id to record id (no channel in the key). -/
  userActiveFile : List (String × String)
  /-- `channelConversations`: channel id to (uploader id to last activity). -/
  channelConversations : List (String × List (String × Nat))
  /-- Parsed contents of the record `.json` files in the data directory. -/
  records : List (String × RecordFile)
  /-- Names of the files present in the data directory. -/
  disk : List String
deriving DecidableEq

/-- `FileRecordService.hasAllowedExtension`. -/
def hasAllowedExtension (fileName : String) : Bool :=
  if !(fileName.data.contains '.') then false
  else ALLOWED_EXTENSIONS.contains (jsExtOf (jsToLower fileName))

/-- `FileRecordService._isAllowedImageExtension`. -/
def isAllowedImageExtensionF (fileName : String) : Bool :=
  if fileName = "" || !(fileName.data.contains '.') then false
  else ALLOWED_IMAGE_EXTENSIONS.contains (jsExtOf (jsToLower fileName))

/-- The `while` loop of `FileManager.createNewRecord`, searching for the
first `name(count)ext` whose `.json` is not on disk.  Fuel bounds the
search; `disk.length + 1` candidates always suffice. -/
def freshIdAux (disk : List String) (name ext : String) : Nat → Nat → String
  | count, 0 => name ++ "(" ++ toString count ++ ")" ++ ext
  | count, fuel + 1 =>
    let cand := name ++ "(" ++ toString count ++ ")" ++ ext
    if disk.contains (cand ++ ".json") then freshIdAux disk name ext (count + 1) fuel
    else cand

/-- Record-id allocation of `FileManager.createNewRecord`: the original
file name, disambiguated with a numeric suffix while its `.json` exists. -/
def createRecordId (disk : List String) (fileName : String) : String :=
  if disk.contains (fileName ++ ".json") then
    let p := splitNameExt fileName
    freshIdAux disk p.1 p.2 1 (disk.length + 1)
  else fileName

/-- `FileManager.addMessageToRecord`: read the record `.json`, push the
message, write it back; a read failure is logged and swallowed, so a
missing record is a no-op. -/
def addMessageToRecord (records : List (String × RecordFile)) (recordId : String)
    (message : MessageRecord) : List (String × RecordFile) :=
  adjustA records recordId (fun r => { r with messages := r.messages ++ [message] })

/-- `FileRecordService.updateConversationTimestamp`. -/
def updateConversationTimestamp (ccs : List (String × List (String × Nat)))
    (channelId uploaderId : String) (now : Nat) : List (String × List (String × Nat)) :=
  match lookupA ccs channelId with
  | none => setA ccs channelId [(uploaderId, now)]
  | some convs => setA ccs channelId (setA convs uploaderId now)

/-- `FileRecordService.cleanupStaleConversations` (the body of the 1-minute
interval timer): drop every conversation entry with
`now - timestamp >= CONVERSATION_TIMEOUT`, then drop emptied channels. -/
def cleanupStaleConversations (st : FRState) (now : Nat) : FRState :=
  let swept := st.channelConversations.map (fun p =>
    (p.1, p.2.filter (fun q => decide (now - q.2 < CONVERSATION_TIMEOUT))))
  { st with channelConversations := swept.filter (fun p => !p.2.isEmpty) }

/-- `FileRecordService._getActiveConversations`. -/
def getActiveConversations (st : FRState) (now : Nat) (channelId : String) : List String :=
  match lookupA st.channelConversations channelId with
  | none => []
  | some convs =>
    (convs.filter (fun q => decide (now - q.2 < CONVERSATION_TIMEOUT))).map Prod.fst

/-- Result record of `_processAndRecordFile`: the returned record id, the
state after the call, and the names under which artifact downloads were
attempted during the call. -/
structure ProcOut where
  ret : Option String
  st : FRState
  downloads : List String
deriving DecidableEq

/-- `FileRecordService._processAndRecordFile`.  `dlOk` is the oracle for
the single artifact fetch (`downloadFile(fileUrl, recordId)`). -/
def processAndRecordFile (st : FRState) (dlOk : Bool) (now : Nat)
    (fileName : String) (fileSize : Nat) (uploaderId channelId : String) : ProcOut :=
  if 16 * 1024 * 1024 < fileSize ∨ hasAllowedExtension fileName = false then
    ⟨none, st, []⟩
  else
    let fileKey := fileName ++ "_" ++ toString fileSize
    let reuse : Option String :=
      match lookupA st.fileIndex fileKey with
      | some recordId =>
        if st.disk.contains (recordId ++ ".json") then some recordId else none
      | none => none
    match reuse with
    | some recordId =>
      ⟨some recordId,
       { st with userActiveFile := setA st.userActiveFile uploaderId recordId }, []⟩
    | none =>
      let recordId := createRecordId st.disk fileName
      let st1 : FRState :=
        { st with
          disk := (recordId ++ ".json") :: st.disk,
          records := setA st.records recordId ⟨uploaderId, channelId, now, []⟩,
          fileIndex := setA st.fileIndex fileKey recordId,
          userActiveFile := setA st.userActiveFile uploaderId recordId }
      if dlOk then
        ⟨some recordId, { st1 with disk := recordId :: st1.disk }, [recordId]⟩
      else
        let st2 : FRState :=
          { st1 with
            disk := st1.disk.erase (recordId ++ ".json"),
            records := eraseA st1.records recordId,
            fileIndex := eraseA st1.fileIndex fileKey }
        let st3 : FRState :=
          if lookupA st2.userActiveFile uploaderId = some recordId then
            { st2 with userActiveFile := eraseA st2.userActiveFile uploaderId }
          else st2
        ⟨none, st3, [recordId]⟩

/-- One entry of `session.elements` as read by `FileRecordService`.
Optional attributes are `Option String` (`none` for a missing attribute);
`file` and `summary` of an image use `""` for a missing attribute so that
the JS `||`-defaulting and `===` comparisons carry over directly. -/
inductive MsgElement where
  | textEl (content : String)
  | atEl (id : Option String)
  | replyEl
  | imgEl (file : String) (summary : String) (src : String)
  | otherEl
deriving DecidableEq

/-- The slice of a koishi `Session` that `handleMessage` and
`_findTargetRecordInfos` read: sender, channel, content elements, and the
quote of `session.event.message` (its id and its author's id). -/
structure FSession where
  userId : String
  channelId : String
  elements : List MsgElement
  quoteId : Option String
  quoteUserId : Option String
deriving DecidableEq

def isAtElement : MsgElement → Bool
  | .atEl _ => true
  | _ => false

/-- `FileRecordService._getTargetFromReplyOrMention`: the first `at`
element's truthy id, else the quoted message author's truthy id. -/
def getTargetFromReplyOrMention (s : FSession) : Option String :=
  match s.elements.find? isAtElement with
  | some (.atEl oid) =>
    match truthyStr oid with
    | some id => some id
    | none => truthyStr s.quoteUserId
  | _ => truthyStr s.quoteUserId

/-- The record used for one attribution target (`TargetInfo` in the source). -/
structure TargetInfo where
  recordId : String
  uploaderId : String
deriving DecidableEq

/-- The broadcast arm of `_findTargetRecordInfos` (step 4 of the source):
active conversations of the channel, mapped to their uploaders' active
files, dropping uploaders without one. -/
def broadcastTargets (st : FRState) (now : Nat) (channelId : String) : List TargetInfo :=
  ((getActiveConversations st now channelId).map
      (fun uploaderId => (uploaderId, lookupA st.userActiveFile uploaderId))).filterMap
    (fun p =>
      match p.2 with
      | some recordId => some ⟨recordId, p.1⟩
      | none => none)

/-- The file payload extracted from a refetched historic message
(`originalMessage.message.find(el => el.type === 'file')?.data`): its
`file`, `file_size` and `url` attributes.  A falsy `file_size` attribute
(absent or the empty string) is `none`; a present numeric string is the
value `parseInt` yields on it. -/
structure QFile where
  file : String
  fileSize : Option Nat
  url : String
deriving DecidableEq

/-- The resolution of the explicit target's record id in
`_findTargetRecordInfos` (source lines 149-163): the target's
`userActiveFile` entry when present; otherwise, when the message quotes
an earlier message (truthy `quote.id`) and the sender passes the
privilege/self guard, the quoted message is refetched (`getMsg`) and, if
it carries a complete file payload, fed through `_processAndRecordFile`
for the explicit target — mutating the service state and possibly
downloading the artifact.  The result carries the resolved record id,
the state after the attempt, and the download attempts it made. -/
def resolveExplicitRecordId (st : FRState) (config : Config) (now : Nat)
    (s : FSession) (getMsg : String → Option QFile) (dlOk : Bool)
    (explicitTargetId : String) : ProcOut :=
  match lookupA st.userActiveFile explicitTargetId with
  | some r => ⟨some r, st, []⟩
  | none =>
    match truthyStr s.quoteId with
    | some qid =>
      if isUserWhitelisted s.userId config = true ∨ s.userId = explicitTargetId then
        match getMsg qid with
        | some qf =>
          if qf.file ≠ "" ∧ qf.fileSize.isSome ∧ qf.url ≠ "" then
            processAndRecordFile st dlOk now qf.file (qf.fileSize.getD 0)
              explicitTargetId s.channelId
          else ⟨none, st, []⟩
        | none => ⟨none, st, []⟩
      else ⟨none, st, []⟩
    | none => ⟨none, st, []⟩

/-- Result of `_findTargetRecordInfos`: the attribution targets, the
service state after the call (the quoted-file recovery branch mutates
it), and the names under which downloads were attempted during it. -/
structure FindOut where
  targets : List TargetInfo
  st : FRState
  downloads : List String
deriving DecidableEq

/-- `FileRecordService._findTargetRecordInfos`.  `getMsg` is the oracle
for `session.onebot.getMsg` (`none` when the call throws or the fetched
message has no file element); `dlOk` is the oracle for the artifact fetch
of a recovery-triggered `_processAndRecordFile`. -/
def findTargetRecordInfos (st : FRState) (config : Config) (now : Nat)
    (s : FSession) (getMsg : String → Option QFile) (dlOk : Bool) : FindOut :=
  match getTargetFromReplyOrMention s with
  | some explicitTargetId =>
    match resolveExplicitRecordId st config now s getMsg dlOk explicitTargetId with
    | ⟨some r, st2, dls⟩ =>
      if isUserWhitelisted s.userId config = true ∨ s.userId = explicitTargetId then
        ⟨[⟨r, explicitTargetId⟩], st2, dls⟩
      else ⟨[], st2, dls⟩
    | ⟨none, st2, dls⟩ => ⟨[], st2, dls⟩
  | none =>
    match lookupA st.userActiveFile s.userId with
    | some uploaderRecordId => ⟨[⟨uploaderRecordId, s.userId⟩], st, []⟩
    | none =>
      if isUserWhitelisted s.userId config = true then
        let active := getActiveConversations st now s.channelId
        if active.length > 0 then ⟨broadcastTargets st now s.channelId, st, []⟩
        else ⟨[], st, []⟩
      else ⟨[], st, []⟩

/-- One step of the element loop of `_buildMessageContent`.  The
accumulator carries `contentParts`, `hasMeaningfulContent`, and the image
names downloaded so far; `imgDl` is the download oracle keyed by the
image `src` URL. -/
def buildStep (recordIdOpt : Option String) (imgDl : String → Bool) (now : Nat)
    (acc : List String × Bool × List String) (e : MsgElement) :
    List String × Bool × List String :=
  match e with
  | .textEl c => if jsTrim c ≠ "" then (acc.1 ++ [c], true, acc.2.2) else acc
  | .atEl _ => acc
  | .replyEl => acc
  | .otherEl => acc
  | .imgEl file summary src =>
    if summary = "[动画表情]" then acc
    else
      let originalFileName := if file = "" then "image_" ++ toString now ++ ".jpg" else file
      if isAllowedImageExtensionF originalFileName = false then acc
      else
        let uniqueImageName :=
          match recordIdOpt with
          | some recordId => recordId ++ "-" ++ originalFileName
          | none => originalFileName
        let part :=
          if imgDl src then "[图片: " ++ uniqueImageName ++ "]"
          else "[图片下载失败: " ++ originalFileName ++ "]"
        (acc.1 ++ [part], true,
         if imgDl src then acc.2.2 ++ [uniqueImageName] else acc.2.2)

/-- `FileRecordService._buildMessageContent`: the joined content when some
element was meaningful, together with the image names written to disk. -/
def buildMessageContent (s : FSession) (recordIdOpt : Option String)
    (imgDl : String → Bool) (now : Nat) : Option String × List String :=
  let r := s.elements.foldl (buildStep recordIdOpt imgDl now) ([], false, [])
  (if r.2.1 then some (String.join r.1) else none, r.2.2)

/-- Result of `handleMessage`: the state after the call and the names
under which downloads were attempted during it (the artifact fetch of a
quoted-file recovery first, then the inline image fetches). -/
structure HandleOut where
  st : FRState
  downloads : List String
deriving DecidableEq

/-- `FileRecordService.handleMessage`. -/
def handleMessage (st : FRState) (config : Config) (now : Nat)
    (s : FSession) (getMsg : String → Option QFile) (dlOk : Bool)
    (imgDl : String → Bool) : HandleOut :=
  match findTargetRecordInfos st config now s getMsg dlOk with
  | ⟨[], st2, dls0⟩ => ⟨st2, dls0⟩
  | ⟨primary :: rest, st2, dls0⟩ =>
    match buildMessageContent s (some primary.recordId) imgDl now with
    | (none, dls) => ⟨st2, dls0 ++ dls⟩
    | (some builtMessage, dls) =>
      let isAmbiguous := (primary :: rest).length > 1
      let finalContent :=
        (if isAmbiguous then AMBIGUOUS_MESSAGE_MARKER else "") ++ builtMessage
      let st1 := (primary :: rest).foldl
        (fun acc t =>
          { acc with
            records := addMessageToRecord acc.records t.recordId
              ⟨finalContent, s.userId⟩,
            channelConversations := updateConversationTimestamp
              acc.channelConversations s.channelId t.uploaderId now })
        st2
      ⟨st1, dls0 ++ dls⟩

/-! ### Additional helper lemmas -/

theorem lookupA_mapVal {α β : Type} (l : List (String × α)) (f : α → β) (k : String) :
    lookupA (l.map (fun p => (p.1, f p.2))) k = (lookupA l k).map f := by
  induction l with
  | nil => simp [lookupA]
  | cons p rest ih =>
    by_cases hp : p.1 = k
    · simp [lookupA, hp]
    · simpa [lookupA, hp] using ih

theorem map_fst_mapVal {α β : Type} (l : List (String × α)) (f : α → β) :
    (l.map (fun p => (p.1, f p.2))).map Prod.fst = l.map Prod.fst := by
  induction l with
  | nil => rfl
  | cons p rest ih => simp [ih]

theorem mem_map_fst_filter {α : Type} (l : List (String × α)) (p : String × α → Bool)
    (x : String) (h : x ∈ (l.filter p).map Prod.fst) : x ∈ l.map Prod.fst := by
  rcases List.mem_map.mp h with ⟨q, hq, hfst⟩
  exact hfst ▸ List.mem_map_of_mem Prod.fst (List.mem_of_mem_filter hq)

theorem lookupA_filterVal {α : Type} (l : List (String × α)) (q : α → Bool) (k : String)
    (hnd : (l.map Prod.fst).Nodup) :
    lookupA (l.filter (fun p => q p.2)) k
      = (lookupA l k).bind (fun v => if q v then some v else none) := by
  induction l with
  | nil => simp [lookupA]
  | cons p rest ih =>
    simp only [List.map_cons, List.nodup_cons] at hnd
    by_cases hp : p.1 = k
    · by_cases hq : q p.2
      · simp [List.filter_cons, hq, lookupA, hp]
      · have hnone : lookupA (rest.filter (fun p => q p.2)) k = none := by
          rw [lookupA_eq_none_iff]
          intro hm
          exact hnd.1 (hp ▸ mem_map_fst_filter rest _ k hm)
        simp [List.filter_cons, hq, lookupA, hp, hnone]
    · by_cases hq : q p.2
      · simp [List.filter_cons, hq, lookupA, hp, ih hnd.2]
      · simp [List.filter_cons, hq, lookupA, hp, ih hnd.2]

theorem lookupA_some_mem {α : Type} (l : List (String × α)) (k : String) (v : α)
    (h : lookupA l k = some v) : (k, v) ∈ l := by
  induction l with
  | nil => simp [lookupA] at h
  | cons p rest ih =>
    obtain ⟨a, b⟩ := p
    by_cases hp : a = k
    · subst hp
      simp only [lookupA, if_pos rfl] at h
      have hv := Option.some.inj h
      subst hv
      exact List.mem_cons_self _ _
    · simp only [lookupA, if_neg hp] at h
      exact List.mem_cons_of_mem _ (ih h)

/-- A present `userActiveFile` binding of the explicit target short-circuits
the recovery: the resolution is the binding and nothing is touched. -/
theorem resolveExplicit_hit (st : FRState) (config : Config) (now : Nat)
    (s : FSession) (getMsg : String → Option QFile) (dlOk : Bool) (e r : String)
    (h : lookupA st.userActiveFile e = some r) :
    resolveExplicitRecordId st config now s getMsg dlOk e = ⟨some r, st, []⟩ := by
  unfold resolveExplicitRecordId
  rw [h]

/-- Without a truthy quoted-message id the recovery cannot fire: the
resolution is the target's binding and nothing is touched. -/
theorem resolveExplicit_no_quote (st : FRState) (config : Config) (now : Nat)
    (s : FSession) (getMsg : String → Option QFile) (dlOk : Bool) (e : String)
    (hq : truthyStr s.quoteId = none) :
    resolveExplicitRecordId st config now s getMsg dlOk e
      = ⟨lookupA st.userActiveFile e, st, []⟩ := by
  unfold resolveExplicitRecordId
  cases hl : lookupA st.userActiveFile e with
  | some r => rfl
  | none => rw [hq]

/-- A failing privilege/self guard blocks the recovery. -/
theorem resolveExplicit_guard_fail (st : FRState) (config : Config) (now : Nat)
    (s : FSession) (getMsg : String → Option QFile) (dlOk : Bool) (e qid : String)
    (hl : lookupA st.userActiveFile e = none)
    (hq : truthyStr s.quoteId = some qid)
    (hg : ¬ (isUserWhitelisted s.userId config = true ∨ s.userId = e)) :
    resolveExplicitRecordId st config now s getMsg dlOk e = ⟨none, st, []⟩ := by
  unfold resolveExplicitRecordId
  rw [hl, hq]
  simp [hg]

/-- A failing quoted-message refetch yields no recovery and touches
nothing. -/
theorem resolveExplicit_msg_none (st : FRState) (config : Config) (now : Nat)
    (s : FSession) (getMsg : String → Option QFile) (dlOk : Bool) (e qid : String)
    (hl : lookupA st.userActiveFile e = none)
    (hq : truthyStr s.quoteId = some qid)
    (hm : getMsg qid = none) :
    resolveExplicitRecordId st config now s getMsg dlOk e = ⟨none, st, []⟩ := by
  unfold resolveExplicitRecordId
  rw [hl, hq]
  by_cases hg : isUserWhitelisted s.userId config = true ∨ s.userId = e
  · simp [hg, hm]
  · simp [hg]

/-- A quoted message whose file payload is incomplete yields no recovery
and touches nothing. -/
theorem resolveExplicit_payload_fail (st : FRState) (config : Config) (now : Nat)
    (s : FSession) (getMsg : String → Option QFile) (dlOk : Bool) (e qid : String)
    (qf : QFile)
    (hl : lookupA st.userActiveFile e = none)
    (hq : truthyStr s.quoteId = some qid)
    (hm : getMsg qid = some qf)
    (hf : ¬ (qf.file ≠ "" ∧ qf.fileSize.isSome ∧ qf.url ≠ "")) :
    resolveExplicitRecordId st config now s getMsg dlOk e = ⟨none, st, []⟩ := by
  unfold resolveExplicitRecordId
  rw [hl, hq]
  by_cases hg : isUserWhitelisted s.userId config = true ∨ s.userId = e
  · simp [hg, hm, hf]
  · simp [hg]

/-- A complete quoted file payload past the guard is fed through
`_processAndRecordFile` for the explicit target. -/
theorem resolveExplicit_fires (st : FRState) (config : Config) (now : Nat)
    (s : FSession) (getMsg : String → Option QFile) (dlOk : Bool) (e qid : String)
    (qf : QFile)
    (hl : lookupA st.userActiveFile e = none)
    (hq : truthyStr s.quoteId = some qid)
    (hg : isUserWhitelisted s.userId config = true ∨ s.userId = e)
    (hm : getMsg qid = some qf)
    (hf : qf.file ≠ "" ∧ qf.fileSize.isSome ∧ qf.url ≠ "") :
    resolveExplicitRecordId st config now s getMsg dlOk e
      = processAndRecordFile st dlOk now qf.file (qf.fileSize.getD 0)
          e s.channelId := by
  unfold resolveExplicitRecordId
  rw [hl, hq]
  simp [hg, hm, hf]

/-- When refetching the quoted message yields nothing (the call throws or
the message has no file element), the resolution is the target's binding
and nothing is touched. -/
theorem resolveExplicit_getMsg_none (st : FRState) (config : Config) (now : Nat)
    (s : FSession) (dlOk : Bool) (e : String) :
    resolveExplicitRecordId st config now s (fun _ => none) dlOk e
      = ⟨lookupA st.userActiveFile e, st, []⟩ := by
  cases hl : lookupA st.userActiveFile e with
  | some r => exact resolveExplicit_hit st config now s (fun _ => none) dlOk e r hl
  | none =>
    cases hq : truthyStr s.quoteId with
    | none => rw [resolveExplicit_no_quote st config now s (fun _ => none) dlOk e hq, hl]
    | some qid =>
      exact resolveExplicit_msg_none st config now s (fun _ => none) dlOk e qid hl hq rfl

/-- With an explicit target, `_findTargetRecordInfos` is determined
componentwise by the resolution of that target's record id. -/
theorem findTargets_explicit_decompose (st : FRState) (config : Config) (now : Nat)
    (s : FSession) (getMsg : String → Option QFile) (dlOk : Bool) (e : String)
    (htgt : getTargetFromReplyOrMention s = some e) :
    findTargetRecordInfos st config now s getMsg dlOk
      = ⟨match (resolveExplicitRecordId st config now s getMsg dlOk e).ret with
         | some r =>
           if isUserWhitelisted s.userId config = true ∨ s.userId = e then [⟨r, e⟩]
           else []
         | none => [],
         (resolveExplicitRecordId st config now s getMsg dlOk e).st,
         (resolveExplicitRecordId st config now s getMsg dlOk e).downloads⟩ := by
  unfold findTargetRecordInfos
  simp only [htgt]
  cases hres : resolveExplicitRecordId st config now s getMsg dlOk e with
  | mk ret st2 dls =>
    cases ret with
    | some r =>
      by_cases hg : isUserWhitelisted s.userId config = true ∨ s.userId = e
      · simp [hg]
      · simp [hg]
    | none => rfl

/-! ### Claim theorems on `FileRecordService` -/

/-- C8: an upload over the 16 MiB ceiling or with a disallowed extension
makes `_processAndRecordFile` return `null` without touching any state
and without attempting any download. -/
theorem processAndRecordFile_validation_silent_noop (st : FRState) (dlOk : Bool) (now : Nat)
    (fileName : String) (fileSize : Nat) (uploaderId channelId : String)
    (h : 16 * 1024 * 1024 < fileSize ∨ hasAllowedExtension fileName = false) :
    processAndRecordFile st dlOk now fileName fileSize uploaderId channelId = ⟨none, st, []⟩ := by
  unfold processAndRecordFile
  rw [if_pos h]

/-- Witness for C8 at a concrete oversized upload. -/
theorem processAndRecordFile_validation_silent_noop_witness :
    (16 * 1024 * 1024 < 17 * 1024 * 1024 ∨ hasAllowedExtension "a.zip" = false) ∧
    processAndRecordFile ⟨[], [], [], [], []⟩ true 0 "a.zip" (17 * 1024 * 1024) "u" "c"
      = ⟨none, ⟨[], [], [], [], []⟩, []⟩ :=
  ⟨Or.inl (by norm_num),
   processAndRecordFile_validation_silent_noop ⟨[], [], [], [], []⟩ true 0 "a.zip"
     (17 * 1024 * 1024) "u" "c" (Or.inl (by norm_num))⟩

/-- C1: a valid first-time upload whose artifact fetch fails returns
`null` and rolls the provisional commit back completely: the new record
file is gone, the fingerprint entry for `(name, size)` is gone, and the
uploader's session entry is removed — the state differs from the initial
one only in that any pre-existing session of the uploader is also gone
(the rollback deletes, it does not restore). -/
theorem processAndRecordFile_fetchFailure_rollsBack (st : FRState) (now : Nat)
    (fileName : String) (fileSize : Nat) (uploaderId channelId : String)
    (hsize : ¬ 16 * 1024 * 1024 < fileSize)
    (hext : hasAllowedExtension fileName = true)
    (hfirst : lookupA st.fileIndex (fileName ++ "_" ++ toString fileSize) = none)
    (hrec : lookupA st.records (createRecordId st.disk fileName) = none)
    (hnodup : (st.userActiveFile.map Prod.fst).Nodup) :
    (processAndRecordFile st false now fileName fileSize uploaderId channelId).ret = none ∧
    (processAndRecordFile st false now fileName fileSize uploaderId channelId).st.fileIndex
      = st.fileIndex ∧
    (processAndRecordFile st false now fileName fileSize uploaderId channelId).st.records
      = st.records ∧
    (processAndRecordFile st false now fileName fileSize uploaderId channelId).st.disk
      = st.disk ∧
    (processAndRecordFile st false now fileName fileSize uploaderId channelId).st.userActiveFile
      = eraseA st.userActiveFile uploaderId ∧
    lookupA (processAndRecordFile st false now fileName fileSize uploaderId
      channelId).st.userActiveFile uploaderId = none ∧
    (processAndRecordFile st false now fileName fileSize uploaderId
      channelId).st.channelConversations = st.channelConversations := by
  have hcond : ¬ (16 * 1024 * 1024 < fileSize ∨ hasAllowedExtension fileName = false) := by
    rw [hext]
    simpa using hsize
  simp only [processAndRecordFile, if_neg hcond, hfirst, lookupA_setA_self, if_pos rfl,
    Bool.false_eq_true, if_false, eraseA_setA]
  repeat' apply And.intro
  all_goals first
    | rfl
    | exact eraseA_of_lookupA_none _ _ hfirst
    | exact eraseA_of_lookupA_none _ _ hrec
    | exact List.erase_cons_head _ _
    | exact lookupA_eraseA_self _ _ hnodup
    | trivial

/-- Concrete state for the C1 witness: an unrelated record and an older
session for the uploader are present. -/
def wstC1 : FRState :=
  ⟨[], [("U1", "old.zip")], [("c", [("U1", 5)])], [("old.zip", ⟨"U1", "c", 0, []⟩)],
   ["old.zip.json"]⟩

/-- Witness for C1 at a concrete failed upload. -/
theorem processAndRecordFile_fetchFailure_rollsBack_witness :
    (¬ 16 * 1024 * 1024 < 100) ∧ hasAllowedExtension "crash.zip" = true ∧
    lookupA wstC1.fileIndex ("crash.zip" ++ "_" ++ toString 100) = none ∧
    lookupA wstC1.records (createRecordId wstC1.disk "crash.zip") = none ∧
    (wstC1.userActiveFile.map Prod.fst).Nodup ∧
    ((processAndRecordFile wstC1 false 7 "crash.zip" 100 "U1" "c").ret = none ∧
     (processAndRecordFile wstC1 false 7 "crash.zip" 100 "U1" "c").st.fileIndex
       = wstC1.fileIndex ∧
     (processAndRecordFile wstC1 false 7 "crash.zip" 100 "U1" "c").st.records
       = wstC1.records ∧
     (processAndRecordFile wstC1 false 7 "crash.zip" 100 "U1" "c").st.disk
       = wstC1.disk ∧
     (processAndRecordFile wstC1 false 7 "crash.zip" 100 "U1" "c").st.userActiveFile
       = eraseA wstC1.userActiveFile "U1" ∧
     lookupA (processAndRecordFile wstC1 false 7 "crash.zip" 100 "U1"
       "c").st.userActiveFile "U1" = none ∧
     (processAndRecordFile wstC1 false 7 "crash.zip" 100 "U1"
       "c").st.channelConversations = wstC1.channelConversations) :=
  ⟨by decide, by decide, by decide, by decide, by decide,
   processAndRecordFile_fetchFailure_rollsBack wstC1 7 "crash.zip" 100 "U1" "c"
     (by decide) (by decide) (by decide) (by decide) (by decide)⟩

/-- C5: after a successful first-time upload, a second upload with the
same `(name, size)` returns the same record id, creates no record, writes
nothing to disk, attempts no download, leaves the fingerprint index
untouched, and only rebinds the second uploader's session entry. -/
theorem processAndRecordFile_reupload_idempotent (st : FRState) (now1 now2 : Nat)
    (dl2 : Bool) (fileName : String) (fileSize : Nat) (u1 ch1 u2 ch2 : String)
    (hsize : ¬ 16 * 1024 * 1024 < fileSize)
    (hext : hasAllowedExtension fileName = true)
    (hfirst : lookupA st.fileIndex (fileName ++ "_" ++ toString fileSize) = none) :
    (processAndRecordFile st true now1 fileName fileSize u1 ch1).ret
      = some (createRecordId st.disk fileName) ∧
    (processAndRecordFile (processAndRecordFile st true now1 fileName fileSize u1 ch1).st
        dl2 now2 fileName fileSize u2 ch2).ret
      = some (createRecordId st.disk fileName) ∧
    (processAndRecordFile (processAndRecordFile st true now1 fileName fileSize u1 ch1).st
        dl2 now2 fileName fileSize u2 ch2).downloads = [] ∧
    (processAndRecordFile (processAndRecordFile st true now1 fileName fileSize u1 ch1).st
        dl2 now2 fileName fileSize u2 ch2).st.records
      = (processAndRecordFile st true now1 fileName fileSize u1 ch1).st.records ∧
    (processAndRecordFile (processAndRecordFile st true now1 fileName fileSize u1 ch1).st
        dl2 now2 fileName fileSize u2 ch2).st.disk
      = (processAndRecordFile st true now1 fileName fileSize u1 ch1).st.disk ∧
    (processAndRecordFile (processAndRecordFile st true now1 fileName fileSize u1 ch1).st
        dl2 now2 fileName fileSize u2 ch2).st.fileIndex
      = (processAndRecordFile st true now1 fileName fileSize u1 ch1).st.fileIndex ∧
    (processAndRecordFile (processAndRecordFile st true now1 fileName fileSize u1 ch1).st
        dl2 now2 fileName fileSize u2 ch2).st.channelConversations
      = (processAndRecordFile st true now1 fileName fileSize u1 ch1).st.channelConversations ∧
    (processAndRecordFile (processAndRecordFile st true now1 fileName fileSize u1 ch1).st
        dl2 now2 fileName fileSize u2 ch2).st.userActiveFile
      = setA (processAndRecordFile st true now1 fileName fileSize u1 ch1).st.userActiveFile
          u2 (createRecordId st.disk fileName) := by
  have hcond : ¬ (16 * 1024 * 1024 < fileSize ∨ hasAllowedExtension fileName = false) := by
    rw [hext]
    simpa using hsize
  have h1 : processAndRecordFile st true now1 fileName fileSize u1 ch1
      = ⟨some (createRecordId st.disk fileName),
         { st with
           disk := createRecordId st.disk fileName
             :: (createRecordId st.disk fileName ++ ".json") :: st.disk,
           records := setA st.records (createRecordId st.disk fileName)
             ⟨u1, ch1, now1, []⟩,
           fileIndex := setA st.fileIndex (fileName ++ "_" ++ toString fileSize)
             (createRecordId st.disk fileName),
           userActiveFile := setA st.userActiveFile u1 (createRecordId st.disk fileName) },
         [createRecordId st.disk fileName]⟩ := by
    simp only [processAndRecordFile, if_neg hcond, hfirst, if_true]
  have hc : ((createRecordId st.disk fileName
      :: (createRecordId st.disk fileName ++ ".json") :: st.disk).contains
        (createRecordId st.disk fileName ++ ".json")) = true := by
    simp [List.contains_cons]
  have h2 : processAndRecordFile
      (processAndRecordFile st true now1 fileName fileSize u1 ch1).st
        dl2 now2 fileName fileSize u2 ch2
      = ⟨some (createRecordId st.disk fileName),
         { (processAndRecordFile st true now1 fileName fileSize u1 ch1).st with
           userActiveFile := setA
             (processAndRecordFile st true now1 fileName fileSize u1 ch1).st.userActiveFile
             u2 (createRecordId st.disk fileName) },
         []⟩ := by
    rw [h1]
    simp only [processAndRecordFile, if_neg hcond, lookupA_setA_self, hc, if_true]
  rw [h2, h1]
  repeat' apply And.intro
  all_goals rfl

/-- Witness for C5 at a concrete re-upload. -/
theorem processAndRecordFile_reupload_idempotent_witness :
    (¬ 16 * 1024 * 1024 < 100) ∧ hasAllowedExtension "crash.zip" = true ∧
    lookupA (FRState.mk [] [] [] [] []).fileIndex ("crash.zip" ++ "_" ++ toString 100)
      = none ∧
    (processAndRecordFile ⟨[], [], [], [], []⟩ true 1 "crash.zip" 100 "U1" "c").ret
      = some (createRecordId (FRState.mk [] [] [] [] []).disk "crash.zip") ∧
    (processAndRecordFile
        (processAndRecordFile ⟨[], [], [], [], []⟩ true 1 "crash.zip" 100 "U1" "c").st
        false 2 "crash.zip" 100 "U2" "c").downloads = [] :=
  ⟨by decide, by decide, by decide,
   (processAndRecordFile_reupload_idempotent ⟨[], [], [], [], []⟩ 1 2 false "crash.zip"
     100 "U1" "c" "U2" "c" (by decide) (by decide) (by decide)).1,
   (processAndRecordFile_reupload_idempotent ⟨[], [], [], [], []⟩ 1 2 false "crash.zip"
     100 "U1" "c" "U2" "c" (by decide) (by decide) (by decide)).2.2.1⟩

/-- C6: a message with an explicit target (mention or quoted reply) whose
target has no active file, and whose quoted-file recovery yields nothing,
is attributed to no record at all — no fallback to the sender's own
session and no fallback to a room broadcast. -/
theorem findTargetRecordInfos_explicit_miss_empty (st : FRState) (config : Config)
    (now : Nat) (s : FSession) (dlOk : Bool) (tgt : String)
    (htgt : getTargetFromReplyOrMention s = some tgt)
    (hmiss : lookupA st.userActiveFile tgt = none) :
    findTargetRecordInfos st config now s (fun _ => none) dlOk = ⟨[], st, []⟩ := by
  rw [findTargets_explicit_decompose st config now s (fun _ => none) dlOk tgt htgt,
    resolveExplicit_getMsg_none, hmiss]

/-- Witness for C6: a privileged sender mentions a user with no open
record in a state with another active session. -/
theorem findTargetRecordInfos_explicit_miss_empty_witness :
    getTargetFromReplyOrMention ⟨"P", "c", [.atEl (some "U9"), .textEl "x"], none, none⟩
      = some "U9" ∧
    lookupA (FRState.mk [] [("U1", "r1")] [("c", [("U1", 0)])]
      [("r1", ⟨"U1", "c", 0, []⟩)] ["r1.json"]).userActiveFile "U9" = none ∧
    findTargetRecordInfos
      ⟨[], [("U1", "r1")], [("c", [("U1", 0)])], [("r1", ⟨"U1", "c", 0, []⟩)], ["r1.json"]⟩
      ⟨["P"], []⟩ 0 ⟨"P", "c", [.atEl (some "U9"), .textEl "x"], none, none⟩
      (fun _ => none) false
      = ⟨[], ⟨[], [("U1", "r1")], [("c", [("U1", 0)])], [("r1", ⟨"U1", "c", 0, []⟩)],
          ["r1.json"]⟩, []⟩ :=
  ⟨by decide, by decide,
   findTargetRecordInfos_explicit_miss_empty
     ⟨[], [("U1", "r1")], [("c", [("U1", 0)])], [("r1", ⟨"U1", "c", 0, []⟩)], ["r1.json"]⟩
     ⟨["P"], []⟩ 0 ⟨"P", "c", [.atEl (some "U9"), .textEl "x"], none, none⟩ false "U9"
     (by decide) (by decide)⟩

/-- C7 counterexample: a non-privileged sender whose own conversation
timestamp is absent (so their session is *not* within any window) is
nevertheless attributed to their own active record — the claim's "only
when that Session is within the conversation window" is false on the
code, which never consults the window for self-attribution. -/
theorem findTargetRecordInfos_self_no_window_check :
    isUserWhitelisted "S" ⟨["P"], []⟩ = false ∧
    getActiveConversations
      ⟨[], [("S", "r")], [], [("r", ⟨"S", "c", 0, []⟩)], ["r.json", "r"]⟩ 999999999 "c"
      = [] ∧
    findTargetRecordInfos
      ⟨[], [("S", "r")], [], [("r", ⟨"S", "c", 0, []⟩)], ["r.json", "r"]⟩
      ⟨["P"], []⟩ 999999999 ⟨"S", "c", [.textEl "hello"], none, none⟩ (fun _ => none) false
      = ⟨[⟨"r", "S"⟩],
         ⟨[], [("S", "r")], [], [("r", ⟨"S", "c", 0, []⟩)], ["r.json", "r"]⟩, []⟩ := by
  refine ⟨by decide, by decide, by decide⟩

/-- With an explicit target, `_findTargetRecordInfos` yields either
nothing or the single target record, and only past the privilege/self
guard. -/
theorem findTargetRecordInfos_explicit_shape (st : FRState) (config : Config)
    (now : Nat) (s : FSession) (getMsg : String → Option QFile) (dlOk : Bool)
    (e : String) (htgt : getTargetFromReplyOrMention s = some e) :
    (findTargetRecordInfos st config now s getMsg dlOk).targets = [] ∨
    (∃ r, (findTargetRecordInfos st config now s getMsg dlOk).targets = [⟨r, e⟩] ∧
      (isUserWhitelisted s.userId config = true ∨ s.userId = e)) := by
  rw [findTargets_explicit_decompose st config now s getMsg dlOk e htgt]
  cases hr : (resolveExplicitRecordId st config now s getMsg dlOk e).ret with
  | none => exact Or.inl rfl
  | some r =>
    by_cases hguard : isUserWhitelisted s.userId config = true ∨ s.userId = e
    · exact Or.inr ⟨r, by simp [hguard], hguard⟩
    · exact Or.inl (by simp [hguard])

/-- Without an explicit target, `_findTargetRecordInfos` uses the
sender's own session if any; otherwise nothing for non-privileged
senders, and for privileged senders the channel broadcast. -/
theorem findTargetRecordInfos_noexplicit_shape (st : FRState) (config : Config)
    (now : Nat) (s : FSession) (getMsg : String → Option QFile) (dlOk : Bool)
    (htgt : getTargetFromReplyOrMention s = none) :
    (∃ r, lookupA st.userActiveFile s.userId = some r ∧
      findTargetRecordInfos st config now s getMsg dlOk = ⟨[⟨r, s.userId⟩], st, []⟩) ∨
    (lookupA st.userActiveFile s.userId = none ∧
      (findTargetRecordInfos st config now s getMsg dlOk = ⟨[], st, []⟩ ∨
       (isUserWhitelisted s.userId config = true ∧
        findTargetRecordInfos st config now s getMsg dlOk
          = ⟨broadcastTargets st now s.channelId, st, []⟩))) := by
  unfold findTargetRecordInfos
  rw [htgt]
  rcases hself : lookupA st.userActiveFile s.userId with _ | r
  · refine Or.inr ⟨rfl, ?_⟩
    by_cases hwl : isUserWhitelisted s.userId config = true
    · rw [if_pos hwl]
      by_cases hlen : (getActiveConversations st now s.channelId).length > 0
      · rw [if_pos hlen]
        exact Or.inr ⟨hwl, rfl⟩
      · rw [if_neg hlen]
        exact Or.inl rfl
    · rw [if_neg hwl]
      exact Or.inl rfl
  · exact Or.inl ⟨r, rfl, rfl⟩

/-- C7 (amended): a non-privileged sender is only ever attributed to
their own session — an explicit target naming someone else yields no
attribution — but the conversation window is never consulted for this
self-attribution. -/
theorem findTargetRecordInfos_nonprivileged_self_only (st : FRState) (config : Config)
    (now : Nat) (s : FSession) (getMsg : String → Option QFile) (dlOk : Bool)
    (hwl : isUserWhitelisted s.userId config = false) :
    (∀ t ∈ (findTargetRecordInfos st config now s getMsg dlOk).targets,
      t.uploaderId = s.userId) ∧
    (∀ tgt, getTargetFromReplyOrMention s = some tgt → tgt ≠ s.userId →
      (findTargetRecordInfos st config now s getMsg dlOk).targets = []) := by
  constructor
  · intro t ht
    cases htgt : getTargetFromReplyOrMention s with
    | some e =>
      rcases findTargetRecordInfos_explicit_shape st config now s getMsg dlOk e htgt
        with hsh | ⟨r, hsh, hguard⟩
      · rw [hsh] at ht
        simp at ht
      · rw [hsh] at ht
        rw [List.mem_singleton] at ht
        rcases hguard with hguard | hguard
        · rw [hwl] at hguard
          exact absurd hguard (by simp)
        · rw [ht, hguard]
    | none =>
      rcases findTargetRecordInfos_noexplicit_shape st config now s getMsg dlOk htgt
        with ⟨r, _, hsh⟩ | ⟨_, hsh | ⟨hwl2, _⟩⟩
      · rw [hsh] at ht
        rw [List.mem_singleton] at ht
        rw [ht]
      · rw [hsh] at ht
        simp at ht
      · rw [hwl2] at hwl
        exact absurd hwl (by simp)
  · intro tgt htgt hne
    rcases findTargetRecordInfos_explicit_shape st config now s getMsg dlOk tgt htgt
      with hsh | ⟨r, _, hguard⟩
    · exact hsh
    · rcases hguard with hguard | hguard
      · rw [hwl] at hguard
        exact absurd hguard (by simp)
      · exact absurd hguard.symm hne

/-- Witness for the C7 amended theorem: a non-privileged sender mentions
another uploader and gets no attribution. -/
theorem findTargetRecordInfos_nonprivileged_self_only_witness :
    isUserWhitelisted "S" ⟨["P"], []⟩ = false ∧
    getTargetFromReplyOrMention ⟨"S", "c", [.atEl (some "U1"), .textEl "x"], none, none⟩
      = some "U1" ∧
    (findTargetRecordInfos
      ⟨[], [("U1", "r1"), ("S", "r")], [("c", [("U1", 0)])],
       [("r1", ⟨"U1", "c", 0, []⟩), ("r", ⟨"S", "c", 0, []⟩)], ["r1.json", "r.json"]⟩
      ⟨["P"], []⟩ 0 ⟨"S", "c", [.atEl (some "U1"), .textEl "x"], none, none⟩
      (fun _ => none) false).targets = [] :=
  ⟨by decide, by decide,
   (findTargetRecordInfos_nonprivileged_self_only
     ⟨[], [("U1", "r1"), ("S", "r")], [("c", [("U1", 0)])],
      [("r1", ⟨"U1", "c", 0, []⟩), ("r", ⟨"S", "c", 0, []⟩)], ["r1.json", "r.json"]⟩
     ⟨["P"], []⟩ 0 ⟨"S", "c", [.atEl (some "U1"), .textEl "x"], none, none⟩
     (fun _ => none) false
     (by decide)).2 "U1" (by decide) (by decide)⟩

/-- Accessor: the conversation timestamp stored for
`(channelId, uploaderId)` in the channel conversation table. -/
def lookupConv (st : FRState) (channelId uploaderId : String) : Option Nat :=
  match lookupA st.channelConversations channelId with
  | none => none
  | some convs => lookupA convs uploaderId

theorem lookupA_sweep (l : List (String × List (String × Nat))) (now : Nat) (ch : String)
    (hnd : (l.map Prod.fst).Nodup) :
    lookupA ((l.map (fun p =>
        (p.1, p.2.filter (fun q => decide (now - q.2 < CONVERSATION_TIMEOUT))))).filter
          (fun p => !p.2.isEmpty)) ch
      = (lookupA l ch).bind (fun convs =>
          if !(convs.filter (fun q => decide (now - q.2 < CONVERSATION_TIMEOUT))).isEmpty
          then some (convs.filter (fun q => decide (now - q.2 < CONVERSATION_TIMEOUT)))
          else none) := by
  induction l with
  | nil => rfl
  | cons p rest ih =>
    simp only [List.map_cons, List.nodup_cons] at hnd
    by_cases hp : p.1 = ch
    · by_cases hemp : (p.2.filter
          (fun q => decide (now - q.2 < CONVERSATION_TIMEOUT))).isEmpty
      · have hnone : lookupA ((rest.map (fun p =>
            (p.1, p.2.filter (fun q => decide (now - q.2 < CONVERSATION_TIMEOUT))))).filter
              (fun p => !p.2.isEmpty)) ch = none := by
          rw [lookupA_eq_none_iff]
          intro hm
          have hm2 := mem_map_fst_filter _ _ ch hm
          rw [map_fst_mapVal] at hm2
          exact hnd.1 (hp ▸ hm2)
        simp [List.map_cons, List.filter_cons, hemp, lookupA, hp, hnone]
      · simp [List.map_cons, List.filter_cons, hemp, lookupA, hp]
    · by_cases hemp : (p.2.filter
          (fun q => decide (now - q.2 < CONVERSATION_TIMEOUT))).isEmpty
      · simp [List.filter_cons, hemp, lookupA, hp, ih hnd.2]
      · simp [List.filter_cons, hemp, lookupA, hp, ih hnd.2]

theorem lookupA_cleanup_channel (st : FRState) (now : Nat) (ch : String)
    (hnd : (st.channelConversations.map Prod.fst).Nodup) :
    lookupA (cleanupStaleConversations st now).channelConversations ch
      = (lookupA st.channelConversations ch).bind (fun convs =>
          if !(convs.filter (fun q => decide (now - q.2 < CONVERSATION_TIMEOUT))).isEmpty
          then some (convs.filter (fun q => decide (now - q.2 < CONVERSATION_TIMEOUT)))
          else none) := by
  simp only [cleanupStaleConversations]
  exact lookupA_sweep st.channelConversations now ch hnd

/-- C3 (amended): once the conversation window has elapsed for an
uploader's session, the cleanup sweep removes its conversation entry, so
the uploader no longer qualifies for implicit broadcast attribution at
any later time; but the active-file binding is untouched by the sweep,
so a subsequent message that explicitly mentions the uploader still
produces exactly one attribution, to the expired session's record. -/
theorem cleanup_evicts_conv_but_explicit_mention_still_attributes
    (st : FRState) (config : Config) (now : Nat) (s : FSession)
    (uploader recordId : String) (convs : List (String × Nat)) (ts : Nat)
    (hndch : (st.channelConversations.map Prod.fst).Nodup)
    (hndu : (convs.map Prod.fst).Nodup)
    (hch : lookupA st.channelConversations s.channelId = some convs)
    (hu : lookupA convs uploader = some ts)
    (hexp : CONVERSATION_TIMEOUT ≤ now - ts)
    (huaf : lookupA st.userActiveFile uploader = some recordId)
    (htgt : getTargetFromReplyOrMention s = some uploader)
    (hok : isUserWhitelisted s.userId config = true ∨ s.userId = uploader) :
    lookupConv (cleanupStaleConversations st now) s.channelId uploader = none ∧
    (∀ n2, uploader ∉ getActiveConversations (cleanupStaleConversations st now)
      n2 s.channelId) ∧
    (∀ (n3 : Nat) (getMsg : String → Option QFile) (dlOk : Bool),
      findTargetRecordInfos (cleanupStaleConversations st now) config n3 s getMsg dlOk
        = ⟨[⟨recordId, uploader⟩], cleanupStaleConversations st now, []⟩) := by
  have hfu : lookupA (convs.filter
      (fun q => decide (now - q.2 < CONVERSATION_TIMEOUT))) uploader = none := by
    rw [lookupA_filterVal convs (fun v => decide (now - v < CONVERSATION_TIMEOUT))
      uploader hndu, hu]
    simp [Nat.not_lt.mpr hexp]
  have hcl := lookupA_cleanup_channel st now s.channelId hndch
  rw [hch] at hcl
  refine ⟨?_, ?_, ?_⟩
  · unfold lookupConv
    rw [hcl]
    by_cases hemp : (convs.filter
        (fun q => decide (now - q.2 < CONVERSATION_TIMEOUT))).isEmpty
    · simp [hemp]
    · simp only [Option.some_bind, hemp, Bool.not_false, if_true]
      exact hfu
  · intro n2 hmem
    unfold getActiveConversations at hmem
    rw [hcl] at hmem
    by_cases hemp : (convs.filter
        (fun q => decide (now - q.2 < CONVERSATION_TIMEOUT))).isEmpty
    · simp [hemp] at hmem
    · simp only [Option.some_bind, hemp, Bool.not_false, if_true] at hmem
      have h1 : uploader ∈ (convs.filter
          (fun q => decide (now - q.2 < CONVERSATION_TIMEOUT))).map Prod.fst := by
        rcases List.mem_map.mp hmem with ⟨q, hq, hfst⟩
        exact hfst ▸ List.mem_map_of_mem Prod.fst (List.mem_of_mem_filter hq)
      rw [lookupA_eq_none_iff] at hfu
      exact hfu h1
  · intro n3 getMsg dlOk
    have huaf2 : lookupA (cleanupStaleConversations st now).userActiveFile uploader
        = some recordId := huaf
    rw [findTargets_explicit_decompose (cleanupStaleConversations st now) config n3 s
          getMsg dlOk uploader htgt,
        resolveExplicit_hit (cleanupStaleConversations st now) config n3 s
          getMsg dlOk uploader recordId huaf2]
    simp [hok]

/-- C3 counterexample: after the conversation window elapses and the
sweep has run, the session's conversation entry is gone, yet an explicit
mention of the expired uploader still produces one attribution (not
zero), because the active-file table is untouched by the sweep. -/
theorem expired_session_explicit_mention_attributes :
    (cleanupStaleConversations
      ⟨[], [("U1", "r1")], [("c", [("U1", 0)])], [("r1", ⟨"U1", "c", 0, []⟩)],
       ["r1.json", "r1"]⟩ 600000).channelConversations = [] ∧
    findTargetRecordInfos
      (cleanupStaleConversations
        ⟨[], [("U1", "r1")], [("c", [("U1", 0)])], [("r1", ⟨"U1", "c", 0, []⟩)],
         ["r1.json", "r1"]⟩ 600000)
      ⟨["P"], []⟩ 600000 ⟨"P", "c", [.atEl (some "U1"), .textEl "x"], none, none⟩
      (fun _ => none) false
      = ⟨[⟨"r1", "U1"⟩],
         cleanupStaleConversations
           ⟨[], [("U1", "r1")], [("c", [("U1", 0)])], [("r1", ⟨"U1", "c", 0, []⟩)],
            ["r1.json", "r1"]⟩ 600000, []⟩ := by
  refine ⟨by decide, by decide⟩

/-- Witness for the C3 amended theorem at the same concrete state. -/
theorem cleanup_evicts_conv_but_explicit_mention_still_attributes_witness :
    lookupA (FRState.mk [] [("U1", "r1")] [("c", [("U1", 0)])]
        [("r1", ⟨"U1", "c", 0, []⟩)] ["r1.json", "r1"]).channelConversations "c"
      = some [("U1", 0)] ∧
    CONVERSATION_TIMEOUT ≤ 600000 - 0 ∧
    (∀ n2, "U1" ∉ getActiveConversations
      (cleanupStaleConversations
        ⟨[], [("U1", "r1")], [("c", [("U1", 0)])], [("r1", ⟨"U1", "c", 0, []⟩)],
         ["r1.json", "r1"]⟩ 600000) n2 "c") ∧
    findTargetRecordInfos
      (cleanupStaleConversations
        ⟨[], [("U1", "r1")], [("c", [("U1", 0)])], [("r1", ⟨"U1", "c", 0, []⟩)],
         ["r1.json", "r1"]⟩ 600000)
      ⟨["P"], []⟩ 777777 ⟨"P", "c", [.atEl (some "U1"), .textEl "x"], none, none⟩
      (fun _ => none) false
      = ⟨[⟨"r1", "U1"⟩],
         cleanupStaleConversations
           ⟨[], [("U1", "r1")], [("c", [("U1", 0)])], [("r1", ⟨"U1", "c", 0, []⟩)],
            ["r1.json", "r1"]⟩ 600000, []⟩ :=
  ⟨by decide, by decide,
   (cleanup_evicts_conv_but_explicit_mention_still_attributes
     ⟨[], [("U1", "r1")], [("c", [("U1", 0)])], [("r1", ⟨"U1", "c", 0, []⟩)],
      ["r1.json", "r1"]⟩ ⟨["P"], []⟩ 600000
     ⟨"P", "c", [.atEl (some "U1"), .textEl "x"], none, none⟩ "U1" "r1" [("U1", 0)] 0
     (by decide) (by decide) (by decide) (by decide) (by decide) (by decide) (by decide)
     (Or.inl (by decide))).2.1,
   (cleanup_evicts_conv_but_explicit_mention_still_attributes
     ⟨[], [("U1", "r1")], [("c", [("U1", 0)])], [("r1", ⟨"U1", "c", 0, []⟩)],
      ["r1.json", "r1"]⟩ ⟨["P"], []⟩ 600000
     ⟨"P", "c", [.atEl (some "U1"), .textEl "x"], none, none⟩ "U1" "r1" [("U1", 0)] 0
     (by decide) (by decide) (by decide) (by decide) (by decide) (by decide) (by decide)
     (Or.inl (by decide))).2.2 777777 (fun _ => none) false⟩

theorem proc_channel_independent (st : FRState) (dlOk : Bool) (now : Nat)
    (fn : String) (sz : Nat) (u c c' : String) :
    (processAndRecordFile st dlOk now fn sz u c).ret
      = (processAndRecordFile st dlOk now fn sz u c').ret ∧
    (processAndRecordFile st dlOk now fn sz u c).st.userActiveFile
      = (processAndRecordFile st dlOk now fn sz u c').st.userActiveFile ∧
    (processAndRecordFile st dlOk now fn sz u c).st.fileIndex
      = (processAndRecordFile st dlOk now fn sz u c').st.fileIndex := by
  by_cases hval : 16 * 1024 * 1024 < sz ∨ hasAllowedExtension fn = false
  · simp [processAndRecordFile, hval]
  · cases hlk : lookupA st.fileIndex (fn ++ "_" ++ toString sz) with
    | some rid =>
      by_cases hdisk : (rid ++ ".json") ∈ st.disk
      · simp [processAndRecordFile, hval, hlk, hdisk]
      · cases dlOk with
        | true => simp [processAndRecordFile, hval, hlk, hdisk]
        | false => simp [processAndRecordFile, hval, hlk, hdisk, lookupA_setA_self]
    | none =>
      cases dlOk with
      | true => simp [processAndRecordFile, hval, hlk]
      | false => simp [processAndRecordFile, hval, hlk, lookupA_setA_self]

theorem proc_channel_downloads (st : FRState) (dlOk : Bool) (now : Nat)
    (fn : String) (sz : Nat) (u c c' : String) :
    (processAndRecordFile st dlOk now fn sz u c).downloads
      = (processAndRecordFile st dlOk now fn sz u c').downloads := by
  by_cases hval : 16 * 1024 * 1024 < sz ∨ hasAllowedExtension fn = false
  · simp [processAndRecordFile, hval]
  · cases hlk : lookupA st.fileIndex (fn ++ "_" ++ toString sz) with
    | some rid =>
      by_cases hdisk : (rid ++ ".json") ∈ st.disk
      · simp [processAndRecordFile, hval, hlk, hdisk]
      · cases dlOk with
        | true => simp [processAndRecordFile, hval, hlk, hdisk]
        | false => simp [processAndRecordFile, hval, hlk, hdisk, lookupA_setA_self]
    | none =>
      cases dlOk with
      | true => simp [processAndRecordFile, hval, hlk]
      | false => simp [processAndRecordFile, hval, hlk, lookupA_setA_self]

/-- The explicit-target resolution ignores the room id in everything but
the `channelId` field stored inside a freshly recovered record file. -/
theorem resolveExplicit_channel (st : FRState) (config : Config) (now : Nat)
    (s : FSession) (getMsg : String → Option QFile) (dlOk : Bool) (e c' : String) :
    (resolveExplicitRecordId st config now
        ⟨s.userId, c', s.elements, s.quoteId, s.quoteUserId⟩ getMsg dlOk e).ret
      = (resolveExplicitRecordId st config now s getMsg dlOk e).ret ∧
    (resolveExplicitRecordId st config now
        ⟨s.userId, c', s.elements, s.quoteId, s.quoteUserId⟩ getMsg dlOk
        e).st.userActiveFile
      = (resolveExplicitRecordId st config now s getMsg dlOk e).st.userActiveFile ∧
    (resolveExplicitRecordId st config now
        ⟨s.userId, c', s.elements, s.quoteId, s.quoteUserId⟩ getMsg dlOk e).st.fileIndex
      = (resolveExplicitRecordId st config now s getMsg dlOk e).st.fileIndex ∧
    (resolveExplicitRecordId st config now
        ⟨s.userId, c', s.elements, s.quoteId, s.quoteUserId⟩ getMsg dlOk e).downloads
      = (resolveExplicitRecordId st config now s getMsg dlOk e).downloads := by
  cases hl : lookupA st.userActiveFile e with
  | some r =>
    rw [resolveExplicit_hit st config now
          ⟨s.userId, c', s.elements, s.quoteId, s.quoteUserId⟩ getMsg dlOk e r hl,
        resolveExplicit_hit st config now s getMsg dlOk e r hl]
    exact ⟨rfl, rfl, rfl, rfl⟩
  | none =>
    cases hq : truthyStr s.quoteId with
    | none =>
      rw [resolveExplicit_no_quote st config now
            ⟨s.userId, c', s.elements, s.quoteId, s.quoteUserId⟩ getMsg dlOk e hq,
          resolveExplicit_no_quote st config now s getMsg dlOk e hq]
      exact ⟨rfl, rfl, rfl, rfl⟩
    | some qid =>
      cases hm : getMsg qid with
      | none =>
        rw [resolveExplicit_msg_none st config now
              ⟨s.userId, c', s.elements, s.quoteId, s.quoteUserId⟩ getMsg dlOk e qid
              hl hq hm,
            resolveExplicit_msg_none st config now s getMsg dlOk e qid hl hq hm]
        exact ⟨rfl, rfl, rfl, rfl⟩
      | some qf =>
        by_cases hf : qf.file ≠ "" ∧ qf.fileSize.isSome ∧ qf.url ≠ ""
        · by_cases hg : isUserWhitelisted s.userId config = true ∨ s.userId = e
          · rw [resolveExplicit_fires st config now
                  ⟨s.userId, c', s.elements, s.quoteId, s.quoteUserId⟩ getMsg dlOk e qid
                  qf hl hq hg hm hf,
                resolveExplicit_fires st config now s getMsg dlOk e qid qf hl hq hg hm hf]
            exact ⟨(proc_channel_independent st dlOk now qf.file (qf.fileSize.getD 0)
                e c' s.channelId).1,
              (proc_channel_independent st dlOk now qf.file (qf.fileSize.getD 0)
                e c' s.channelId).2.1,
              (proc_channel_independent st dlOk now qf.file (qf.fileSize.getD 0)
                e c' s.channelId).2.2,
              proc_channel_downloads st dlOk now qf.file (qf.fileSize.getD 0)
                e c' s.channelId⟩
          · rw [resolveExplicit_guard_fail st config now
                  ⟨s.userId, c', s.elements, s.quoteId, s.quoteUserId⟩ getMsg dlOk e qid
                  hl hq hg,
                resolveExplicit_guard_fail st config now s getMsg dlOk e qid hl hq hg]
            exact ⟨rfl, rfl, rfl, rfl⟩
        · rw [resolveExplicit_payload_fail st config now
                ⟨s.userId, c', s.elements, s.quoteId, s.quoteUserId⟩ getMsg dlOk e qid
                qf hl hq hm hf,
              resolveExplicit_payload_fail st config now s getMsg dlOk e qid qf
                hl hq hm hf]
          exact ⟨rfl, rfl, rfl, rfl⟩

theorem proc_ret_binds_user (st : FRState) (dlOk : Bool) (now : Nat)
    (fn : String) (sz : Nat) (u c rid : String)
    (h : (processAndRecordFile st dlOk now fn sz u c).ret = some rid) :
    lookupA (processAndRecordFile st dlOk now fn sz u c).st.userActiveFile u
      = some rid := by
  by_cases hval : 16 * 1024 * 1024 < sz ∨ hasAllowedExtension fn = false
  · simp [processAndRecordFile, hval] at h
  · cases hlk : lookupA st.fileIndex (fn ++ "_" ++ toString sz) with
    | some r0 =>
      by_cases hdisk : (r0 ++ ".json") ∈ st.disk
      · have hout : processAndRecordFile st dlOk now fn sz u c
            = ⟨some r0, { st with userActiveFile := setA st.userActiveFile u r0 }, []⟩ := by
          simp [processAndRecordFile, hval, hlk, hdisk]
        rw [hout] at h ⊢
        simp only at h
        have hr := Option.some.inj h
        subst hr
        exact lookupA_setA_self _ _ _
      · cases dlOk with
        | true =>
          have hout : processAndRecordFile st true now fn sz u c
              = ⟨some (createRecordId st.disk fn),
                 { st with
                   disk := createRecordId st.disk fn
                     :: (createRecordId st.disk fn ++ ".json") :: st.disk,
                   records := setA st.records (createRecordId st.disk fn)
                     ⟨u, c, now, []⟩,
                   fileIndex := setA st.fileIndex (fn ++ "_" ++ toString sz)
                     (createRecordId st.disk fn),
                   userActiveFile := setA st.userActiveFile u (createRecordId st.disk fn) },
                 [createRecordId st.disk fn]⟩ := by
            simp [processAndRecordFile, hval, hlk, hdisk]
          rw [hout] at h ⊢
          simp only at h
          have hr := Option.some.inj h
          subst hr
          exact lookupA_setA_self _ _ _
        | false =>
          have hout : (processAndRecordFile st false now fn sz u c).ret = none := by
            simp [processAndRecordFile, hval, hlk, hdisk, lookupA_setA_self]
          rw [hout] at h
          exact absurd h (by simp)
    | none =>
      cases dlOk with
      | true =>
        have hout : processAndRecordFile st true now fn sz u c
            = ⟨some (createRecordId st.disk fn),
               { st with
                 disk := createRecordId st.disk fn
                   :: (createRecordId st.disk fn ++ ".json") :: st.disk,
                 records := setA st.records (createRecordId st.disk fn)
                   ⟨u, c, now, []⟩,
                 fileIndex := setA st.fileIndex (fn ++ "_" ++ toString sz)
                   (createRecordId st.disk fn),
                 userActiveFile := setA st.userActiveFile u (createRecordId st.disk fn) },
               [createRecordId st.disk fn]⟩ := by
          simp [processAndRecordFile, hval, hlk]
        rw [hout] at h ⊢
        simp only at h
        have hr := Option.some.inj h
        subst hr
        exact lookupA_setA_self _ _ _
      | false =>
        have hout : (processAndRecordFile st false now fn sz u c).ret = none := by
          simp [processAndRecordFile, hval, hlk, lookupA_setA_self]
        rw [hout] at h
        exact absurd h (by simp)

theorem findTargets_ignores_channel_when_not_broadcast (st : FRState) (config : Config)
    (now : Nat) (s : FSession) (getMsg : String → Option QFile) (dlOk : Bool)
    (c' : String)
    (h : getTargetFromReplyOrMention s ≠ none
      ∨ lookupA st.userActiveFile s.userId ≠ none) :
    (findTargetRecordInfos st config now
        ⟨s.userId, c', s.elements, s.quoteId, s.quoteUserId⟩ getMsg dlOk).targets
      = (findTargetRecordInfos st config now s getMsg dlOk).targets ∧
    (findTargetRecordInfos st config now
        ⟨s.userId, c', s.elements, s.quoteId, s.quoteUserId⟩ getMsg
        dlOk).st.userActiveFile
      = (findTargetRecordInfos st config now s getMsg dlOk).st.userActiveFile ∧
    (findTargetRecordInfos st config now
        ⟨s.userId, c', s.elements, s.quoteId, s.quoteUserId⟩ getMsg dlOk).st.fileIndex
      = (findTargetRecordInfos st config now s getMsg dlOk).st.fileIndex := by
  have htgt : getTargetFromReplyOrMention
      ⟨s.userId, c', s.elements, s.quoteId, s.quoteUserId⟩
      = getTargetFromReplyOrMention s := rfl
  cases he : getTargetFromReplyOrMention s with
  | some e =>
    have he' : getTargetFromReplyOrMention
        ⟨s.userId, c', s.elements, s.quoteId, s.quoteUserId⟩ = some e := htgt.trans he
    rcases resolveExplicit_channel st config now s getMsg dlOk e c' with ⟨h1, h2, h3, h4⟩
    rw [findTargets_explicit_decompose st config now
          ⟨s.userId, c', s.elements, s.quoteId, s.quoteUserId⟩ getMsg dlOk e he',
        findTargets_explicit_decompose st config now s getMsg dlOk e he]
    refine ⟨?_, h2, h3⟩
    rw [h1]
  | none =>
    rcases h with h | h
    · exact absurd he h
    · cases hu : lookupA st.userActiveFile s.userId with
      | some r =>
        unfold findTargetRecordInfos
        rw [htgt, he]
        simp only [hu]
        repeat' apply And.intro
        all_goals first | rfl | trivial
      | none => exact absurd hu h

theorem proc_preserves_nodup_userActiveFile (st : FRState) (dlOk : Bool) (now : Nat)
    (fn : String) (sz : Nat) (u c : String)
    (h : (st.userActiveFile.map Prod.fst).Nodup) :
    (((processAndRecordFile st dlOk now fn sz u c).st.userActiveFile).map Prod.fst).Nodup := by
  by_cases hval : 16 * 1024 * 1024 < sz ∨ hasAllowedExtension fn = false
  · simpa [processAndRecordFile, hval] using h
  · cases hlk : lookupA st.fileIndex (fn ++ "_" ++ toString sz) with
    | some r0 =>
      by_cases hdisk : (r0 ++ ".json") ∈ st.disk
      · have hout : (processAndRecordFile st dlOk now fn sz u c).st.userActiveFile
            = setA st.userActiveFile u r0 := by
          simp [processAndRecordFile, hval, hlk, hdisk]
        rw [hout]
        exact nodup_keys_setA _ _ _ h
      · cases dlOk with
        | true =>
          have hout : (processAndRecordFile st true now fn sz u c).st.userActiveFile
              = setA st.userActiveFile u (createRecordId st.disk fn) := by
            simp [processAndRecordFile, hval, hlk, hdisk]
          rw [hout]
          exact nodup_keys_setA _ _ _ h
        | false =>
          have hout : (processAndRecordFile st false now fn sz u c).st.userActiveFile
              = eraseA (setA st.userActiveFile u (createRecordId st.disk fn)) u := by
            simp [processAndRecordFile, hval, hlk, hdisk, lookupA_setA_self]
          rw [hout]
          exact nodup_keys_eraseA _ _ (nodup_keys_setA _ _ _ h)
    | none =>
      cases dlOk with
      | true =>
        have hout : (processAndRecordFile st true now fn sz u c).st.userActiveFile
            = setA st.userActiveFile u (createRecordId st.disk fn) := by
          simp [processAndRecordFile, hval, hlk]
        rw [hout]
        exact nodup_keys_setA _ _ _ h
      | false =>
        have hout : (processAndRecordFile st false now fn sz u c).st.userActiveFile
            = eraseA (setA st.userActiveFile u (createRecordId st.disk fn)) u := by
          simp [processAndRecordFile, hval, hlk, lookupA_setA_self]
        rw [hout]
        exact nodup_keys_eraseA _ _ (nodup_keys_setA _ _ _ h)

/-- C9: the active-file table is keyed by the participant alone.  The
upload handler's returned id, its active-file table, and its fingerprint
index do not depend on the room; a successful upload leaves the (unique,
room-independent) binding of the uploader at the returned id; explicit
and self lookups ignore the room id; and key uniqueness of the table is
preserved by every upload. -/
theorem userActiveFile_keyed_by_user_alone :
    (∀ (st : FRState) (dlOk : Bool) (now : Nat) (fn : String) (sz : Nat) (u c c' : String),
      (processAndRecordFile st dlOk now fn sz u c).ret
        = (processAndRecordFile st dlOk now fn sz u c').ret ∧
      (processAndRecordFile st dlOk now fn sz u c).st.userActiveFile
        = (processAndRecordFile st dlOk now fn sz u c').st.userActiveFile ∧
      (processAndRecordFile st dlOk now fn sz u c).st.fileIndex
        = (processAndRecordFile st dlOk now fn sz u c').st.fileIndex) ∧
    (∀ (st : FRState) (dlOk : Bool) (now : Nat) (fn : String) (sz : Nat) (u c rid : String),
      (processAndRecordFile st dlOk now fn sz u c).ret = some rid →
      lookupA (processAndRecordFile st dlOk now fn sz u c).st.userActiveFile u
        = some rid) ∧
    (∀ (st : FRState) (config : Config) (now : Nat) (s : FSession)
        (getMsg : String → Option QFile) (dlOk : Bool) (c' : String),
      (getTargetFromReplyOrMention s ≠ none
        ∨ lookupA st.userActiveFile s.userId ≠ none) →
      (findTargetRecordInfos st config now
          ⟨s.userId, c', s.elements, s.quoteId, s.quoteUserId⟩ getMsg dlOk).targets
        = (findTargetRecordInfos st config now s getMsg dlOk).targets ∧
      (findTargetRecordInfos st config now
          ⟨s.userId, c', s.elements, s.quoteId, s.quoteUserId⟩ getMsg
          dlOk).st.userActiveFile
        = (findTargetRecordInfos st config now s getMsg dlOk).st.userActiveFile ∧
      (findTargetRecordInfos st config now
          ⟨s.userId, c', s.elements, s.quoteId, s.quoteUserId⟩ getMsg dlOk).st.fileIndex
        = (findTargetRecordInfos st config now s getMsg dlOk).st.fileIndex) ∧
    (∀ (st : FRState) (dlOk : Bool) (now : Nat) (fn : String) (sz : Nat) (u c : String),
      (st.userActiveFile.map Prod.fst).Nodup →
      (((processAndRecordFile st dlOk now fn sz u c).st.userActiveFile).map
        Prod.fst).Nodup) :=
  ⟨fun st dlOk now fn sz u c c' => proc_channel_independent st dlOk now fn sz u c c',
   fun st dlOk now fn sz u c rid h => proc_ret_binds_user st dlOk now fn sz u c rid h,
   fun st config now s getMsg dlOk c' h =>
     findTargets_ignores_channel_when_not_broadcast st config now s getMsg dlOk c' h,
   fun st dlOk now fn sz u c h => proc_preserves_nodup_userActiveFile st dlOk now fn sz u c h⟩

/-- Witness for C9 at concrete inputs: an upload registered from two
different rooms yields identical bindings, and an explicit-mention
lookup is room-independent. -/
theorem userActiveFile_keyed_by_user_alone_witness :
    ((processAndRecordFile ⟨[], [], [], [], []⟩ true 0 "a.zip" 9 "U" "roomA").ret
      = (processAndRecordFile ⟨[], [], [], [], []⟩ true 0 "a.zip" 9 "U" "roomB").ret ∧
     (processAndRecordFile ⟨[], [], [], [], []⟩ true 0 "a.zip" 9 "U" "roomA").st.userActiveFile
      = (processAndRecordFile ⟨[], [], [], [], []⟩ true 0 "a.zip" 9 "U"
          "roomB").st.userActiveFile ∧
     (processAndRecordFile ⟨[], [], [], [], []⟩ true 0 "a.zip" 9 "U" "roomA").st.fileIndex
      = (processAndRecordFile ⟨[], [], [], [], []⟩ true 0 "a.zip" 9 "U"
          "roomB").st.fileIndex) ∧
    ((processAndRecordFile ⟨[], [], [], [], []⟩ true 0 "a.zip" 9 "U" "roomA").ret
        = some "a.zip" →
      lookupA (processAndRecordFile ⟨[], [], [], [], []⟩ true 0 "a.zip" 9 "U"
        "roomA").st.userActiveFile "U" = some "a.zip") ∧
    (findTargetRecordInfos ⟨[], [("U", "r")], [], [("r", ⟨"U", "c", 0, []⟩)], []⟩
        ⟨[], []⟩ 0 ⟨"U", "otherRoom", [.textEl "hi"], none, none⟩
        (fun _ => none) false).targets
      = (findTargetRecordInfos ⟨[], [("U", "r")], [], [("r", ⟨"U", "c", 0, []⟩)], []⟩
        ⟨[], []⟩ 0 ⟨"U", "c", [.textEl "hi"], none, none⟩ (fun _ => none) false).targets :=
  ⟨userActiveFile_keyed_by_user_alone.1 ⟨[], [], [], [], []⟩ true 0 "a.zip" 9 "U"
     "roomA" "roomB",
   fun h => userActiveFile_keyed_by_user_alone.2.1 ⟨[], [], [], [], []⟩ true 0 "a.zip"
     9 "U" "roomA" "a.zip" h,
   (userActiveFile_keyed_by_user_alone.2.2.1
     ⟨[], [("U", "r")], [], [("r", ⟨"U", "c", 0, []⟩)], []⟩ ⟨[], []⟩ 0
     ⟨"U", "c", [.textEl "hi"], none, none⟩ (fun _ => none) false "otherRoom"
     (Or.inr (by decide))).1⟩

theorem handleMessage_foldl_records (ts : List TargetInfo) (st : FRState)
    (ch : String) (now : Nat) (m : MessageRecord) :
    (ts.foldl (fun acc t =>
      { acc with
        records := addMessageToRecord acc.records t.recordId m,
        channelConversations := updateConversationTimestamp
          acc.channelConversations ch t.uploaderId now }) st).records
    = ts.foldl (fun recs t => addMessageToRecord recs t.recordId m) st.records := by
  induction ts generalizing st with
  | nil => rfl
  | cons t rest ih =>
    simp only [List.foldl_cons]
    exact ih _

theorem lookupA_fold_add_not_mem (ts : List TargetInfo)
    (recs : List (String × RecordFile)) (m : MessageRecord) (rid : String)
    (h : rid ∉ ts.map TargetInfo.recordId) :
    lookupA (ts.foldl (fun recs t => addMessageToRecord recs t.recordId m) recs) rid
      = lookupA recs rid := by
  induction ts generalizing recs with
  | nil => rfl
  | cons t rest ih =>
    simp only [List.map_cons, List.mem_cons] at h
    push_neg at h
    simp only [List.foldl_cons]
    rw [ih _ h.2]
    unfold addMessageToRecord
    exact lookupA_adjustA_ne _ _ _ _ h.1

theorem lookupA_fold_add_mem (ts : List TargetInfo)
    (recs : List (String × RecordFile)) (m : MessageRecord) (t : TargetInfo)
    (ht : t ∈ ts) (hnd : (ts.map TargetInfo.recordId).Nodup) :
    lookupA (ts.foldl (fun recs t => addMessageToRecord recs t.recordId m) recs)
        t.recordId
      = (lookupA recs t.recordId).map
          (fun r => { r with messages := r.messages ++ [m] }) := by
  induction ts generalizing recs with
  | nil => simp at ht
  | cons t0 rest ih =>
    simp only [List.map_cons, List.nodup_cons] at hnd
    rcases List.mem_cons.mp ht with h0 | h0
    · subst h0
      simp only [List.foldl_cons]
      rw [lookupA_fold_add_not_mem _ _ _ _ hnd.1]
      unfold addMessageToRecord
      exact lookupA_adjustA_self _ _ _
    · have hne : t.recordId ≠ t0.recordId := by
        intro he
        exact hnd.1 (he ▸ List.mem_map_of_mem TargetInfo.recordId h0)
      simp only [List.foldl_cons]
      rw [ih _ h0 hnd.2]
      unfold addMessageToRecord
      rw [lookupA_adjustA_ne _ _ _ _ hne]

/-- For a privileged sender with no explicit target and no own active
file, attribution is exactly the room broadcast. -/
theorem findTargets_broadcast_eq (st : FRState) (config : Config) (now : Nat)
    (s : FSession) (getMsg : String → Option QFile) (dlOk : Bool)
    (hwl : isUserWhitelisted s.userId config = true)
    (hnoexp : getTargetFromReplyOrMention s = none)
    (hself : lookupA st.userActiveFile s.userId = none)
    (hne : broadcastTargets st now s.channelId ≠ []) :
    findTargetRecordInfos st config now s getMsg dlOk
      = ⟨broadcastTargets st now s.channelId, st, []⟩ := by
  unfold findTargetRecordInfos
  rw [hnoexp]
  simp only [hself, hwl]
  have hact : (getActiveConversations st now s.channelId).length > 0 := by
    by_contra h0
    apply hne
    have hemp : getActiveConversations st now s.channelId = [] := by
      cases hga : getActiveConversations st now s.channelId with
      | nil => rfl
      | cons a l =>
        rw [hga] at h0
        simp at h0
    unfold broadcastTargets
    rw [hemp]
    rfl
  rw [if_pos trivial, if_pos hact]

/-- C2 (amended): when a privileged sender's message has no explicit
target and the sender has no active file of their own, and the room has
one or more sessions within the window whose uploaders hold active
files, the built content is appended to every such record; each entry is
prefixed with the ambiguity marker exactly when there is more than one
such record; with exactly one, no marker is added. -/
theorem privileged_broadcast_marks_ambiguous (st : FRState) (config : Config)
    (now : Nat) (s : FSession) (getMsg : String → Option QFile) (dlOk : Bool)
    (imgDl : String → Bool) (t0 : TargetInfo)
    (rest : List TargetInfo) (builtMessage : String) (dls : List String)
    (hwl : isUserWhitelisted s.userId config = true)
    (hnoexp : getTargetFromReplyOrMention s = none)
    (hself : lookupA st.userActiveFile s.userId = none)
    (hbt : broadcastTargets st now s.channelId = t0 :: rest)
    (hnd : ((t0 :: rest).map TargetInfo.recordId).Nodup)
    (hbuild : buildMessageContent s (some t0.recordId) imgDl now
      = (some builtMessage, dls)) :
    ∀ t ∈ t0 :: rest,
      lookupA (handleMessage st config now s getMsg dlOk imgDl).st.records t.recordId
        = (lookupA st.records t.recordId).map (fun r =>
            { r with messages := r.messages ++
                [⟨(if (t0 :: rest).length > 1 then AMBIGUOUS_MESSAGE_MARKER else "")
                    ++ builtMessage, s.userId⟩] }) := by
  have hfind : findTargetRecordInfos st config now s getMsg dlOk
      = ⟨t0 :: rest, st, []⟩ := by
    rw [findTargets_broadcast_eq st config now s getMsg dlOk hwl hnoexp hself
      (by rw [hbt]; simp), hbt]
  intro t ht
  simp only [handleMessage, hfind, hbuild]
  rw [handleMessage_foldl_records]
  exact lookupA_fold_add_mem _ _ _ _ ht hnd

/-- Concrete state for the C2 counterexample: the privileged helper `P`
has an open record of their own while `U1` and `U2` both have sessions
within the window. -/
def wstC2 : FRState :=
  ⟨[], [("P", "pr"), ("U1", "r1"), ("U2", "r2")], [("c", [("U1", 0), ("U2", 0)])],
   [("pr", ⟨"P", "c", 0, []⟩), ("r1", ⟨"U1", "c", 0, []⟩), ("r2", ⟨"U2", "c", 0, []⟩)],
   ["pr.json", "r1.json", "r2.json"]⟩

/-- C2 counterexample: a privileged sender with no explicit target while
more than one session in the room is within the window.  The claim says
the message is appended to every such session's record with the marker;
the code instead attributes solely to the sender's own active file
(step 3 precedes the broadcast), appends there without any marker, and
appends nothing to the in-window records. -/
theorem privileged_with_own_record_skips_broadcast :
    isUserWhitelisted "P" ⟨["P"], []⟩ = true ∧
    getTargetFromReplyOrMention ⟨"P", "c", [.textEl "hi"], none, none⟩ = none ∧
    (broadcastTargets wstC2 10 "c").length > 1 ∧
    ⟨"r1", "U1"⟩ ∈ broadcastTargets wstC2 10 "c" ∧
    lookupA (handleMessage wstC2 ⟨["P"], []⟩ 10
      ⟨"P", "c", [.textEl "hi"], none, none⟩ (fun _ => none) false (fun _ => true)).st.records "r1"
      = some ⟨"U1", "c", 0, []⟩ ∧
    lookupA (handleMessage wstC2 ⟨["P"], []⟩ 10
      ⟨"P", "c", [.textEl "hi"], none, none⟩ (fun _ => none) false (fun _ => true)).st.records "r2"
      = some ⟨"U2", "c", 0, []⟩ ∧
    lookupA (handleMessage wstC2 ⟨["P"], []⟩ 10
      ⟨"P", "c", [.textEl "hi"], none, none⟩ (fun _ => none) false (fun _ => true)).st.records "pr"
      = some ⟨"P", "c", 0, [⟨"hi", "P"⟩]⟩ := by
  refine ⟨by decide, by decide, by decide, by decide, by decide, by decide, by decide⟩

/-- Concrete state for the C2 amended witness: the helper has no open
record; `U1` and `U2` are both within the window. -/
def wstC2b : FRState :=
  ⟨[], [("U1", "r1"), ("U2", "r2")], [("c", [("U1", 0), ("U2", 0)])],
   [("r1", ⟨"U1", "c", 0, []⟩), ("r2", ⟨"U2", "c", 0, []⟩)],
   ["r1.json", "r2.json"]⟩

/-- Witness for the C2 amended theorem: two in-window sessions, so the
entry carries the ambiguity marker. -/
theorem privileged_broadcast_marks_ambiguous_witness :
    broadcastTargets wstC2b 10 "c" = [⟨"r1", "U1"⟩, ⟨"r2", "U2"⟩] ∧
    buildMessageContent ⟨"P", "c", [.textEl "hi"], none, none⟩ (some "r1")
      (fun _ => true) 10 = (some "hi", []) ∧
    lookupA (handleMessage wstC2b ⟨["P"], []⟩ 10
      ⟨"P", "c", [.textEl "hi"], none, none⟩ (fun _ => none) false (fun _ => true)).st.records "r1"
      = (lookupA wstC2b.records "r1").map (fun r =>
          { r with messages := r.messages ++
              [⟨(if ([⟨"r1", "U1"⟩, ⟨"r2", "U2"⟩] : List TargetInfo).length > 1
                  then AMBIGUOUS_MESSAGE_MARKER else "") ++ "hi", "P"⟩] }) :=
  ⟨by decide, by decide,
   privileged_broadcast_marks_ambiguous wstC2b ⟨["P"], []⟩ 10
     ⟨"P", "c", [.textEl "hi"], none, none⟩ (fun _ => none) false (fun _ => true)
     ⟨"r1", "U1"⟩
     [⟨"r2", "U2"⟩] "hi" [] (by decide) (by decide) (by decide) (by decide) (by decide)
     (by decide) ⟨"r1", "U1"⟩ (by decide)⟩

/-- An element that `_buildMessageContent` ignores: a mention, a reply
marker, an unknown element, whitespace-only text, an animated sticker,
or an image whose (present) file name has a disallowed extension. -/
def elementMeaningless : MsgElement → Bool
  | .textEl c => jsTrim c == ""
  | .atEl _ => true
  | .replyEl => true
  | .otherEl => true
  | .imgEl file summary _ =>
    summary == "[动画表情]" || (file != "" && !(isAllowedImageExtensionF file))

theorem buildStep_meaningless (recordIdOpt : Option String) (imgDl : String → Bool)
    (now : Nat) (acc : List String × Bool × List String) (e : MsgElement)
    (h : elementMeaningless e = true) :
    buildStep recordIdOpt imgDl now acc e = acc := by
  cases e with
  | textEl c =>
    have hc : jsTrim c = "" := by simpa [elementMeaningless] using h
    simp [buildStep, hc]
  | atEl id => rfl
  | replyEl => rfl
  | otherEl => rfl
  | imgEl file summary src =>
    by_cases hsum : summary = "[动画表情]"
    · simp [buildStep, hsum]
    · have h2 : file ≠ "" ∧ isAllowedImageExtensionF file = false := by
        simpa [elementMeaningless, hsum] using h
      simp [buildStep, hsum, h2.1, h2.2]

theorem buildFold_meaningless (recordIdOpt : Option String) (imgDl : String → Bool)
    (now : Nat) (els : List MsgElement)
    (h : ∀ e ∈ els, elementMeaningless e = true)
    (acc : List String × Bool × List String) :
    els.foldl (buildStep recordIdOpt imgDl now) acc = acc := by
  induction els generalizing acc with
  | nil => rfl
  | cons e rest ih =>
    simp only [List.foldl_cons]
    rw [buildStep_meaningless _ _ _ _ _ (h e (List.mem_cons_self _ _))]
    exact ih (fun x hx => h x (List.mem_cons_of_mem _ hx)) acc

/-- C10 counterexample: a whitespace-only reply quoting a processable
file message is *not* a no-op.  The attribution step's quoted-file
recovery fires before the content check: it creates a record file,
inserts a fingerprint entry, binds the quoted uploader's active file and
downloads the artifact — and only then is the empty content discarded
without appending anything.  The claim's "all engine state and all
record files are left unchanged" is false on the code. -/
theorem whitespace_reply_quote_recovery_mutates_state :
    (∀ e ∈ [MsgElement.replyEl, .textEl "   "], elementMeaningless e = true) ∧
    buildMessageContent ⟨"P", "c", [.replyEl, .textEl "   "], some "q1", some "U1"⟩
      (some "crash.zip") (fun _ => true) 7 = (none, []) ∧
    handleMessage ⟨[], [], [], [], []⟩ ⟨["P"], []⟩ 7
      ⟨"P", "c", [.replyEl, .textEl "   "], some "q1", some "U1"⟩
      (fun _ => some ⟨"crash.zip", some 100, "http://x"⟩) true (fun _ => true)
      = ⟨⟨[("crash.zip_100", "crash.zip")], [("U1", "crash.zip")], [],
          [("crash.zip", ⟨"U1", "c", 7, []⟩)], ["crash.zip", "crash.zip.json"]⟩,
         ["crash.zip"]⟩ ∧
    (handleMessage ⟨[], [], [], [], []⟩ ⟨["P"], []⟩ 7
      ⟨"P", "c", [.replyEl, .textEl "   "], some "q1", some "U1"⟩
      (fun _ => some ⟨"crash.zip", some 100, "http://x"⟩) true (fun _ => true)).st
      ≠ (⟨[], [], [], [], []⟩ : FRState) := by
  refine ⟨by decide, by decide, by decide, by decide⟩

/-- C10 (amended): a message whose elements are all content-free
(mentions, reply markers, whitespace-only text, animated stickers,
images with disallowed extensions) never has anything appended to any
record and refreshes no conversation timestamp; and when the message
does not quote an earlier message, `handleMessage` is a complete no-op:
the state is returned unchanged and nothing is downloaded, even when
attribution would have produced targets.  (A content-free *reply*
quoting a processable file message is not a no-op: the quoted-file
recovery of the attribution step creates a record, indexes its
fingerprint, binds the quoted uploader's active file and downloads the
artifact before the empty content is discarded.) -/
theorem handleMessage_contentless_noop (st : FRState) (config : Config) (now : Nat)
    (s : FSession) (getMsg : String → Option QFile) (dlOk : Bool)
    (imgDl : String → Bool)
    (h : ∀ e ∈ s.elements, elementMeaningless e = true)
    (hq : truthyStr s.quoteId = none) :
    handleMessage st config now s getMsg dlOk imgDl = ⟨st, []⟩ := by
  have hbuild : ∀ rid, buildMessageContent s rid imgDl now = (none, []) := by
    intro rid
    unfold buildMessageContent
    rw [buildFold_meaningless _ _ _ _ h]
    rfl
  cases he : getTargetFromReplyOrMention s with
  | some e =>
    cases hl : lookupA st.userActiveFile e with
    | none =>
      have hdec : findTargetRecordInfos st config now s getMsg dlOk = ⟨[], st, []⟩ := by
        rw [findTargets_explicit_decompose st config now s getMsg dlOk e he,
            resolveExplicit_no_quote st config now s getMsg dlOk e hq, hl]
      simp only [handleMessage, hdec]
    | some r =>
      by_cases hg : isUserWhitelisted s.userId config = true ∨ s.userId = e
      · have hdec : findTargetRecordInfos st config now s getMsg dlOk
            = ⟨[⟨r, e⟩], st, []⟩ := by
          rw [findTargets_explicit_decompose st config now s getMsg dlOk e he,
              resolveExplicit_no_quote st config now s getMsg dlOk e hq, hl]
          simp [hg]
        simp only [handleMessage, hdec, hbuild, List.nil_append]
      · have hdec : findTargetRecordInfos st config now s getMsg dlOk
            = ⟨[], st, []⟩ := by
          rw [findTargets_explicit_decompose st config now s getMsg dlOk e he,
              resolveExplicit_no_quote st config now s getMsg dlOk e hq, hl]
          simp [hg]
        simp only [handleMessage, hdec]
  | none =>
    rcases findTargetRecordInfos_noexplicit_shape st config now s getMsg dlOk he
      with ⟨r, _, hsh⟩ | ⟨_, hsh | ⟨_, hsh⟩⟩
    · simp only [handleMessage, hsh, hbuild, List.nil_append]
    · simp only [handleMessage, hsh]
    · cases hbt : broadcastTargets st now s.channelId with
      | nil =>
        rw [hbt] at hsh
        simp only [handleMessage, hsh]
      | cons t0 ts =>
        rw [hbt] at hsh
        simp only [handleMessage, hsh, hbuild, List.nil_append]

/-- Witness for the C10 amended theorem: a non-quoting message carrying a
mention (which does yield a target), a reply marker, whitespace text, a
sticker, and a disallowed image leaves the state untouched — even under
oracles that would let a recovery succeed. -/
theorem handleMessage_contentless_noop_witness :
    (∀ e ∈ [MsgElement.atEl (some "U1"), .replyEl, .textEl "   ",
        .imgEl "sticker.png" "[动画表情]" "u1", .imgEl "anim.gif" "" "u2"],
      elementMeaningless e = true) ∧
    truthyStr (none : Option String) = none ∧
    (findTargetRecordInfos
      ⟨[], [("U1", "r1")], [("c", [("U1", 0)])], [("r1", ⟨"U1", "c", 0, []⟩)],
       ["r1.json"]⟩ ⟨["P"], []⟩ 5
      ⟨"P", "c", [.atEl (some "U1"), .replyEl, .textEl "   ",
        .imgEl "sticker.png" "[动画表情]" "u1", .imgEl "anim.gif" "" "u2"], none, none⟩
      (fun _ => some ⟨"crash.zip", some 100, "http://x"⟩) true).targets ≠ [] ∧
    handleMessage
      ⟨[], [("U1", "r1")], [("c", [("U1", 0)])], [("r1", ⟨"U1", "c", 0, []⟩)],
       ["r1.json"]⟩ ⟨["P"], []⟩ 5
      ⟨"P", "c", [.atEl (some "U1"), .replyEl, .textEl "   ",
        .imgEl "sticker.png" "[动画表情]" "u1", .imgEl "anim.gif" "" "u2"], none, none⟩
      (fun _ => some ⟨"crash.zip", some 100, "http://x"⟩) true (fun _ => true)
      = ⟨⟨[], [("U1", "r1")], [("c", [("U1", 0)])], [("r1", ⟨"U1", "c", 0, []⟩)],
          ["r1.json"]⟩, []⟩ :=
  ⟨by decide, by decide, by decide,
   handleMessage_contentless_noop
     ⟨[], [("U1", "r1")], [("c", [("U1", 0)])], [("r1", ⟨"U1", "c", 0, []⟩)],
      ["r1.json"]⟩ ⟨["P"], []⟩ 5
     ⟨"P", "c", [.atEl (some "U1"), .replyEl, .textEl "   ",
       .imgEl "sticker.png" "[动画表情]" "u1", .imgEl "anim.gif" "" "u2"], none, none⟩
     (fun _ => some ⟨"crash.zip", some 100, "http://x"⟩) true (fun _ => true)
     (by decide) (by decide)⟩

/-! ### Model of the older engine in `src/index.ts` -/

/-- One entry of `activeRecordings` (the `timeout`/`whitelistTimeout`
handles are timers and are not part of the modelled state). -/
structure Recording where
  fileName : String
  uploaderUserId : String
  channelId : String
  startTime : Nat
  lastWhitelistReplyTime : Option Nat
deriving DecidableEq

/-- One entry of `whitelistMessageCache`. -/
structure CacheEntry where
  message : MessageRecord
  timestamp : Nat
  relatedFiles : List String
deriving DecidableEq

/-- The module-level mutable state of `src/index.ts`, plus the record
files and data directory managed through its `FileManager`. -/
structure IdxState where
  activeRecordings : List (String × Recording)
  channelActiveFiles : List (String × List String)
  whitelistMessageCache : List (String × CacheEntry)
  recentUploaderMessages : List (String × Nat)
  records : List (String × List MessageRecord)
  disk : List String
deriving DecidableEq

/-- One entry of `session.elements` as read by `recordMessage`. -/
inductive IdxElement where
  | atEl (id : Option String)
  | quoteEl (id : Option String)
  | imgEl (file : String) (src : String)
  | otherEl
deriving DecidableEq

/-- The slice of the session object read by `recordMessage`
(`session.content` is `""` when absent, matching `|| ''`). -/
structure IdxSession where
  channelId : String
  userId : String
  messageId : String
  content : String
  elements : List IdxElement
deriving DecidableEq

/-- JS `String.prototype.startsWith`, modelled character-wise. -/
def strStartsWithAux : List Char → List Char → Bool
  | [], _ => true
  | _ :: _, [] => false
  | c :: cs, d :: ds => (c == d) && strStartsWithAux cs ds

def strStartsWith (s pre : String) : Bool := strStartsWithAux pre.data s.data

/-- `getActiveFilesInChannel`. -/
def getActiveFilesInChannel (st : IdxState) (channelId : String) : List String :=
  (lookupA st.channelActiveFiles channelId).getD []

def isQuoteEl : IdxElement → Bool
  | .quoteEl _ => true
  | _ => false

/-- `getRepliedUserId`: the first `quote` element's truthy id. -/
def getRepliedUserId (s : IdxSession) : Option String :=
  match s.elements.find? isQuoteEl with
  | some (.quoteEl oid) => truthyStr oid
  | _ => none

/-- `cleanupExpiredCache`: drop every cache entry older than the
uploader-message window. -/
def cleanupExpiredCache (st : IdxState) (now : Nat) : IdxState :=
  let kept := st.whitelistMessageCache.filter
    (fun p => !(decide (UPLOADER_MESSAGE_WINDOW < now - p.2.timestamp)))
  { st with whitelistMessageCache := kept }

/-- `getMessageKey` (`Date.now()` substitutes for a missing message id). -/
def getMessageKey (s : IdxSession) (now : Nat) : String :=
  s.channelId ++ "_" ++ s.userId ++ "_" ++
    (if s.messageId = "" then toString now else s.messageId)

/-- `isFileUploaderRecentlyActive`. -/
def isFileUploaderRecentlyActive (st : IdxState) (now : Nat) (fileName : String) : Bool :=
  match lookupA st.recentUploaderMessages fileName with
  | none => false
  | some t => decide (now - t ≤ UPLOADER_MESSAGE_WINDOW)

/-- `associateUnlinkedCacheMessages`: link every unlinked, in-window
cache entry of the channel to the newly active file. -/
def associateUnlinkedCacheMessages (st : IdxState) (now : Nat)
    (fileName channelId : String) : IdxState :=
  let linked := st.whitelistMessageCache.map (fun p =>
    if strStartsWith p.1 (channelId ++ "_") ∧ p.2.relatedFiles = [] ∧
        now - p.2.timestamp ≤ UPLOADER_MESSAGE_WINDOW then
      (p.1, { p.2 with relatedFiles := p.2.relatedFiles ++ [fileName] })
    else p)
  { st with whitelistMessageCache := linked }

/-- Stable insertion used by `sortByTimestamp` (a later-arriving entry
never moves before an equal timestamp, matching JS stable `sort`). -/
def sortInsertByTs (x : String × CacheEntry) :
    List (String × CacheEntry) → List (String × CacheEntry)
  | [] => [x]
  | y :: ys =>
    if y.2.timestamp < x.2.timestamp then y :: sortInsertByTs x ys else x :: y :: ys

/-- `relevantMessages.sort((a, b) => a.cache.timestamp - b.cache.timestamp)`. -/
def sortByTimestamp : List (String × CacheEntry) → List (String × CacheEntry)
  | [] => []
  | x :: xs => sortInsertByTs x (sortByTimestamp xs)

/-- `fileManager.addMessageToRecord` of `index.ts`: append if the record
file is readable, otherwise a silent no-op. -/
def addMessageToRecordIdx (records : List (String × List MessageRecord))
    (fileName : String) (m : MessageRecord) : List (String × List MessageRecord) :=
  adjustA records fileName (fun ms => ms ++ [m])

/-- The body of the flush loop of `flushCachedMessagesForFile`: append
the cached message, remove the file from the entry's related list, and
delete the entry when no related file remains. -/
def flushStep (fileName : String) (acc : IdxState) (p : String × CacheEntry) : IdxState :=
  let acc2 : IdxState :=
    { acc with records := addMessageToRecordIdx acc.records fileName p.2.message }
  let newRelated := p.2.relatedFiles.filter (fun f => !(f == fileName))
  if newRelated = [] then
    { acc2 with whitelistMessageCache := eraseA acc2.whitelistMessageCache p.1 }
  else
    let cache := setA acc2.whitelistMessageCache p.1 { p.2 with relatedFiles := newRelated }
    { acc2 with whitelistMessageCache := cache }

/-- `flushCachedMessagesForFile`. -/
def flushCachedMessagesForFile (st : IdxState) (fileName : String) : IdxState :=
  match lookupA st.activeRecordings fileName with
  | none => st
  | some _ =>
    let relevant := st.whitelistMessageCache.filter
      (fun p => p.2.relatedFiles.contains fileName)
    let sorted := sortByTimestamp relevant
    sorted.foldl (flushStep fileName) st

/-- `isAllowedImageElement` of `index.ts` (no explicit dot check: a
dotless name is its own "extension"). -/
def idxIsAllowedImageElement : IdxElement → Bool
  | .imgEl file _ => ALLOWED_IMAGE_EXTENSIONS.contains (jsExtOf (jsToLower file))
  | _ => false

/-- The `while` loop of `fileManager.getUniqueFileName` of `index.ts`,
with fuel bounding the search. -/
def getUniqueAux (disk : List String) (base ext : String) : Nat → Nat → String
  | count, 0 => base ++ "(" ++ toString count ++ ")" ++ ext
  | count, fuel + 1 =>
    let cand := base ++ "(" ++ toString count ++ ")" ++ ext
    if disk.contains cand then getUniqueAux disk base ext (count + 1) fuel else cand

/-- `fileManager.getUniqueFileName` of `index.ts`. -/
def getUniqueFileName (disk : List String) (baseName ext : String) : String :=
  if disk.contains (baseName ++ ext) then
    getUniqueAux disk baseName ext 1 (disk.length + 1)
  else baseName ++ ext

/-- The inline-image part of the uploader branch of `recordMessage`. -/
def recordUploaderImages (imgDl : String → Bool) (now : Nat)
    (fileName userId : String) (els : List IdxElement) (st : IdxState) : IdxState :=
  els.foldl (fun acc el =>
    match el with
    | .imgEl file src =>
      if idxIsAllowedImageElement (.imgEl file src) then
        let imgFileName := if file = "" then "img_" ++ toString now ++ ".jpg" else file
        let p := splitAtLastDotJs imgFileName
        let uniqueImgFileName := getUniqueFileName acc.disk p.1 p.2
        if imgDl src then
          let recs := addMessageToRecordIdx acc.records fileName
            ⟨"[图片] " ++ uniqueImgFileName, userId⟩
          { acc with disk := uniqueImgFileName :: acc.disk, records := recs }
        else acc
      else acc
    | _ => acc) st

/-- The per-file body of the uploader branch of `recordMessage`: refresh
the uploader-activity stamp, link pending cache entries, record the
uploader's own text and images, then flush the linked cache entries
(the `whitelistTimeout` clearing is a timer action, not modelled). -/
def processUploaderFile (s : IdxSession) (imgDl : String → Bool) (now : Nat)
    (st : IdxState) (fileName : String) : IdxState :=
  match lookupA st.activeRecordings fileName with
  | none => st
  | some _ =>
    let st1 : IdxState :=
      { st with recentUploaderMessages := setA st.recentUploaderMessages fileName now }
    let st2 := associateUnlinkedCacheMessages st1 now fileName s.channelId
    let recs3 := addMessageToRecordIdx st2.records fileName ⟨s.content, s.userId⟩
    let st3 := if s.content ≠ "" then { st2 with records := recs3 } else st2
    let st4 := recordUploaderImages imgDl now fileName s.userId s.elements st3
    flushCachedMessagesForFile st4 fileName

/-- `recordMessage` of `index.ts`. -/
def recordMessage (st : IdxState) (config : Config) (now : Nat)
    (s : IdxSession) (imgDl : String → Bool) : IdxState :=
  let channelFiles := getActiveFilesInChannel st s.channelId
  if channelFiles = [] then st
  else
    let stc := cleanupExpiredCache st now
    let isWhitelisted := isUserWhitelisted s.userId config
    let repliedUserId := getRepliedUserId s
    let uploaderFiles := channelFiles.filter (fun fn =>
      match lookupA stc.activeRecordings fn with
      | some rec => rec.uploaderUserId == s.userId
      | none => false)
    if uploaderFiles ≠ [] then
      let atNonWhitelist := s.elements.any (fun el =>
        match el with
        | .atEl (some id) => id ≠ "" && !(isUserWhitelisted id config)
        | _ => false)
      let replyNonWhitelist :=
        match repliedUserId with
        | some r => !(isUserWhitelisted r config)
        | none => false
      if atNonWhitelist || replyNonWhitelist then stc
      else uploaderFiles.foldl (fun acc fn => processUploaderFile s imgDl now acc fn) stc
    else if isWhitelisted = true then
      let mentionedFiles := channelFiles.filter (fun fn =>
        match lookupA stc.activeRecordings fn with
        | none => false
        | some rec =>
          let atUploader := s.elements.any (fun el =>
            match el with
            | .atEl (some id) => id == rec.uploaderUserId
            | _ => false)
          let replyUploader :=
            match repliedUserId with
            | some r => r == rec.uploaderUserId
            | none => false
          atUploader || replyUploader)
      if mentionedFiles ≠ [] then
        mentionedFiles.foldl (fun acc fn =>
          match lookupA acc.activeRecordings fn with
          | none => acc
          | some rec =>
            let recs := addMessageToRecordIdx acc.records fn ⟨s.content, s.userId⟩
            let ars := setA acc.activeRecordings fn
              { rec with lastWhitelistReplyTime := some now }
            { acc with records := recs, activeRecordings := ars }) stc
      else
        let messageKey := getMessageKey s now
        let activeFiles := getActiveFilesInChannel stc s.channelId
        if activeFiles ≠ [] then
          let recentActiveFiles := activeFiles.filter
            (fun fn => isFileUploaderRecentlyActive stc now fn)
          if recentActiveFiles ≠ [] then
            let cache1 := setA stc.whitelistMessageCache messageKey
              ⟨⟨s.content, s.userId⟩, now, recentActiveFiles⟩
            { stc with whitelistMessageCache := cache1 }
          else
            let cache2 := setA stc.whitelistMessageCache messageKey
              ⟨⟨s.content, s.userId⟩, now, []⟩
            { stc with whitelistMessageCache := cache2 }
        else stc
    else stc

theorem sortByTimestamp_eq_self (l : List (String × CacheEntry))
    (h : l.Pairwise (fun a b => a.2.timestamp ≤ b.2.timestamp)) :
    sortByTimestamp l = l := by
  induction l with
  | nil => rfl
  | cons x xs ih =>
    show sortInsertByTs x (sortByTimestamp xs) = x :: xs
    rw [ih (List.pairwise_cons.mp h).2]
    cases xs with
    | nil => rfl
    | cons y ys =>
      have hxy : x.2.timestamp ≤ y.2.timestamp :=
        (List.pairwise_cons.mp h).1 y (List.mem_cons_self _ _)
      simp [sortInsertByTs, Nat.not_lt.mpr hxy]

theorem lookupA_filter_window (l : List (String × CacheEntry)) (now : Nat) (key : String)
    (hnd : (l.map Prod.fst).Nodup) :
    lookupA (l.filter
        (fun p => !(decide (UPLOADER_MESSAGE_WINDOW < now - p.2.timestamp)))) key
      = (lookupA l key).bind (fun e =>
          if UPLOADER_MESSAGE_WINDOW < now - e.timestamp then none else some e) := by
  induction l with
  | nil => rfl
  | cons p rest ih =>
    simp only [List.map_cons, List.nodup_cons] at hnd
    by_cases hp : p.1 = key
    · by_cases hw : UPLOADER_MESSAGE_WINDOW < now - p.2.timestamp
      · have hnone : lookupA (rest.filter
            (fun p => !(decide (UPLOADER_MESSAGE_WINDOW < now - p.2.timestamp)))) key
            = none := by
          rw [lookupA_eq_none_iff]
          intro hm
          exact hnd.1 (hp ▸ mem_map_fst_filter rest _ key hm)
        simp [List.filter_cons, hw, lookupA, hp, hnone]
      · simp [List.filter_cons, hw, lookupA, hp]
    · by_cases hw : UPLOADER_MESSAGE_WINDOW < now - p.2.timestamp
      · simp [List.filter_cons, hw, lookupA, hp, ih hnd.2]
      · simp [List.filter_cons, hw, lookupA, hp, ih hnd.2]

theorem associate_map_all (l : List (String × CacheEntry)) (now : Nat)
    (fileName channelId : String)
    (h : ∀ p ∈ l, strStartsWith p.1 (channelId ++ "_") = true ∧ p.2.relatedFiles = []
      ∧ now - p.2.timestamp ≤ UPLOADER_MESSAGE_WINDOW) :
    l.map (fun p =>
      if strStartsWith p.1 (channelId ++ "_") ∧ p.2.relatedFiles = [] ∧
          now - p.2.timestamp ≤ UPLOADER_MESSAGE_WINDOW then
        (p.1, { p.2 with relatedFiles := p.2.relatedFiles ++ [fileName] })
      else p)
    = l.map (fun p => (p.1, { p.2 with relatedFiles := [fileName] })) := by
  induction l with
  | nil => rfl
  | cons p rest ih =>
    have hp := h p (List.mem_cons_self _ _)
    simp only [List.map_cons]
    rw [if_pos ⟨hp.1, hp.2.1, hp.2.2⟩, hp.2.1,
      ih (fun x hx => h x (List.mem_cons_of_mem _ hx))]
    rfl

theorem flushFold_all_single (l : List (String × CacheEntry)) (st : IdxState)
    (fileName : String)
    (hrel : ∀ p ∈ l, p.2.relatedFiles = [fileName])
    (hcache : st.whitelistMessageCache = l) :
    (l.foldl (flushStep fileName) st).whitelistMessageCache = [] ∧
    (l.foldl (flushStep fileName) st).records
      = l.foldl (fun recs p => addMessageToRecordIdx recs fileName p.2.message)
          st.records ∧
    (l.foldl (flushStep fileName) st).activeRecordings = st.activeRecordings ∧
    (l.foldl (flushStep fileName) st).channelActiveFiles = st.channelActiveFiles ∧
    (l.foldl (flushStep fileName) st).recentUploaderMessages
      = st.recentUploaderMessages ∧
    (l.foldl (flushStep fileName) st).disk = st.disk := by
  induction l generalizing st with
  | nil => exact ⟨hcache, rfl, rfl, rfl, rfl, rfl⟩
  | cons p rest ih =>
    have hp := hrel p (List.mem_cons_self _ _)
    have hnew : p.2.relatedFiles.filter (fun f => !(f == fileName)) = [] := by
      rw [hp]
      simp
    have hstep : flushStep fileName st p
        = { st with
            records := addMessageToRecordIdx st.records fileName p.2.message,
            whitelistMessageCache := eraseA st.whitelistMessageCache p.1 } := by
      simp [flushStep, hnew]
    have hcache2 : (flushStep fileName st p).whitelistMessageCache = rest := by
      rw [hstep]
      show eraseA st.whitelistMessageCache p.1 = rest
      rw [hcache]
      simp [eraseA]
    have hih := ih (flushStep fileName st p)
      (fun x hx => hrel x (List.mem_cons_of_mem _ hx)) hcache2
    simp only [List.foldl_cons]
    refine ⟨hih.1, ?_, ?_, ?_, ?_, ?_⟩
    · rw [hih.2.1, hstep]
    · rw [hih.2.2.1, hstep]
    · rw [hih.2.2.2.1, hstep]
    · rw [hih.2.2.2.2.1, hstep]
    · rw [hih.2.2.2.2.2, hstep]

theorem lookupA_fold_addIdx (l : List (String × CacheEntry))
    (recs : List (String × List MessageRecord)) (fileName : String) :
    lookupA (l.foldl (fun recs p => addMessageToRecordIdx recs fileName p.2.message)
        recs) fileName
      = (lookupA recs fileName).map
          (fun ms => ms ++ l.map (fun p => p.2.message)) := by
  induction l generalizing recs with
  | nil => cases h : lookupA recs fileName <;> simp [h]
  | cons p rest ih =>
    simp only [List.foldl_cons]
    rw [ih]
    unfold addMessageToRecordIdx
    rw [lookupA_adjustA_self]
    cases h : lookupA recs fileName <;> simp [h]

theorem processUploaderFile_flushes (st : IdxState) (s : IdxSession)
    (imgDl : String → Bool) (now : Nat) (fn : String) (rec : Recording)
    (hrec : lookupA st.activeRecordings fn = some rec)
    (hels : s.elements = [])
    (hcont : s.content ≠ "")
    (hcache : ∀ p ∈ st.whitelistMessageCache,
      strStartsWith p.1 (s.channelId ++ "_") = true ∧ p.2.relatedFiles = []
      ∧ now - p.2.timestamp ≤ UPLOADER_MESSAGE_WINDOW)
    (hsorted : st.whitelistMessageCache.Pairwise
      (fun a b => a.2.timestamp ≤ b.2.timestamp)) :
    (processUploaderFile s imgDl now st fn).whitelistMessageCache = [] ∧
    lookupA (processUploaderFile s imgDl now st fn).records fn
      = (lookupA st.records fn).map (fun ms =>
          ms ++ MessageRecord.mk s.content s.userId ::
            st.whitelistMessageCache.map (fun p => p.2.message)) := by
  have hmain : processUploaderFile s imgDl now st fn
      = flushCachedMessagesForFile
          { st with
            recentUploaderMessages := setA st.recentUploaderMessages fn now,
            whitelistMessageCache := st.whitelistMessageCache.map
              (fun p => (p.1, { p.2 with relatedFiles := [fn] })),
            records := addMessageToRecordIdx st.records fn ⟨s.content, s.userId⟩ } fn := by
    simp only [processUploaderFile, hrec, associateUnlinkedCacheMessages, hels,
      recordUploaderImages, List.foldl_nil, if_pos hcont]
    rw [associate_map_all _ _ _ _ hcache]
  rw [hmain]
  have hrec2 : lookupA
      ({ st with
         recentUploaderMessages := setA st.recentUploaderMessages fn now,
         whitelistMessageCache := st.whitelistMessageCache.map
           (fun p => (p.1, { p.2 with relatedFiles := [fn] })),
         records := addMessageToRecordIdx st.records fn
           ⟨s.content, s.userId⟩ } : IdxState).activeRecordings fn = some rec := hrec
  have hall : ∀ p ∈ st.whitelistMessageCache.map
      (fun p => (p.1, { p.2 with relatedFiles := [fn] })),
      p.2.relatedFiles = [fn] := by
    intro p hp
    rcases List.mem_map.mp hp with ⟨q, _, hq⟩
    rw [← hq]
  have hfilter : (st.whitelistMessageCache.map
      (fun p => (p.1, { p.2 with relatedFiles := [fn] }))).filter
        (fun p => p.2.relatedFiles.contains fn)
      = st.whitelistMessageCache.map
          (fun p => (p.1, { p.2 with relatedFiles := [fn] })) := by
    rw [List.filter_eq_self]
    intro p hp
    rw [hall p hp]
    simp
  have hsorted2 : (st.whitelistMessageCache.map
      (fun p => (p.1, { p.2 with relatedFiles := [fn] }))).Pairwise
        (fun a b => a.2.timestamp ≤ b.2.timestamp) := by
    rw [List.pairwise_map]
    exact hsorted.imp (fun {a b} hab => hab)
  have hsort : sortByTimestamp (st.whitelistMessageCache.map
      (fun p => (p.1, { p.2 with relatedFiles := [fn] })))
      = st.whitelistMessageCache.map
          (fun p => (p.1, { p.2 with relatedFiles := [fn] })) :=
    sortByTimestamp_eq_self _ hsorted2
  have hflush := flushFold_all_single
    (st.whitelistMessageCache.map (fun p => (p.1, { p.2 with relatedFiles := [fn] })))
    { st with
      recentUploaderMessages := setA st.recentUploaderMessages fn now,
      whitelistMessageCache := st.whitelistMessageCache.map
        (fun p => (p.1, { p.2 with relatedFiles := [fn] })),
      records := addMessageToRecordIdx st.records fn ⟨s.content, s.userId⟩ } fn
    hall rfl
  have hfl : flushCachedMessagesForFile
      { st with
        recentUploaderMessages := setA st.recentUploaderMessages fn now,
        whitelistMessageCache := st.whitelistMessageCache.map
          (fun p => (p.1, { p.2 with relatedFiles := [fn] })),
        records := addMessageToRecordIdx st.records fn ⟨s.content, s.userId⟩ } fn
      = (st.whitelistMessageCache.map
          (fun p => (p.1, { p.2 with relatedFiles := [fn] }))).foldl (flushStep fn)
          { st with
            recentUploaderMessages := setA st.recentUploaderMessages fn now,
            whitelistMessageCache := st.whitelistMessageCache.map
              (fun p => (p.1, { p.2 with relatedFiles := [fn] })),
            records := addMessageToRecordIdx st.records fn ⟨s.content, s.userId⟩ } := by
    simp only [flushCachedMessagesForFile, hrec2, hfilter, hsort]
  rw [hfl]
  refine ⟨hflush.1, ?_⟩
  rw [hflush.2.1]
  show lookupA ((st.whitelistMessageCache.map
      (fun p => (p.1, { p.2 with relatedFiles := [fn] }))).foldl
        (fun recs p => addMessageToRecordIdx recs fn p.2.message)
        (addMessageToRecordIdx st.records fn ⟨s.content, s.userId⟩)) fn = _
  rw [lookupA_fold_addIdx]
  unfold addMessageToRecordIdx
  rw [lookupA_adjustA_self, List.map_map]
  cases h : lookupA st.records fn <;> simp [h]

theorem recordMessage_uploader_branch (st : IdxState) (config : Config) (now : Nat)
    (s : IdxSession) (imgDl : String → Bool) (fn : String) (rec : Recording)
    (hch : getActiveFilesInChannel st s.channelId = [fn])
    (hrec : lookupA st.activeRecordings fn = some rec)
    (hupl : rec.uploaderUserId = s.userId)
    (hels : s.elements = []) :
    recordMessage st config now s imgDl
      = processUploaderFile s imgDl now (cleanupExpiredCache st now) fn := by
  have har : (cleanupExpiredCache st now).activeRecordings = st.activeRecordings := rfl
  have hreply : getRepliedUserId s = none := by
    simp [getRepliedUserId, hels]
  have hbeq : (rec.uploaderUserId == s.userId) = true := by
    rw [hupl]
    simp
  simp only [recordMessage, hch]
  rw [if_neg (show ¬([fn] = []) by simp)]
  split
  · simp only [hels, hreply, List.any_nil, Bool.or_self, Bool.false_eq_true, if_false]
    simp only [List.filter_cons, List.filter_nil, har, hrec, hbeq, if_true,
      List.foldl_cons, List.foldl_nil]
  · next h1 =>
    exfalso
    apply h1
    simp only [List.filter_cons, List.filter_nil, har, hrec, hbeq, if_true]
    simp

theorem recordMessage_caches_unattributed (st : IdxState) (config : Config)
    (now : Nat) (s : IdxSession) (imgDl : String → Bool)
    (hwl : isUserWhitelisted s.userId config = true)
    (hels : s.elements = [])
    (hne : getActiveFilesInChannel st s.channelId ≠ [])
    (hnoup : ∀ fn ∈ getActiveFilesInChannel st s.channelId, ∀ rec,
      lookupA st.activeRecordings fn = some rec → rec.uploaderUserId ≠ s.userId)
    (hnorecent : ∀ fn ∈ getActiveFilesInChannel st s.channelId,
      isFileUploaderRecentlyActive st now fn = false) :
    recordMessage st config now s imgDl
      = { cleanupExpiredCache st now with
          whitelistMessageCache := setA
            (cleanupExpiredCache st now).whitelistMessageCache
            (getMessageKey s now) ⟨⟨s.content, s.userId⟩, now, []⟩ } := by
  have har : (cleanupExpiredCache st now).activeRecordings = st.activeRecordings := rfl
  have hcf : getActiveFilesInChannel (cleanupExpiredCache st now) s.channelId
      = getActiveFilesInChannel st s.channelId := rfl
  have hru : ∀ fn, isFileUploaderRecentlyActive (cleanupExpiredCache st now) now fn
      = isFileUploaderRecentlyActive st now fn := fun _ => rfl
  have hreply : getRepliedUserId s = none := by
    simp [getRepliedUserId, hels]
  simp only [recordMessage]
  rw [if_neg hne]
  split
  · next h1 =>
    exfalso
    apply h1
    refine List.filter_eq_nil_iff.mpr ?_
    intro fn hfn
    rw [har]
    cases hr : lookupA st.activeRecordings fn with
    | none => simp
    | some r =>
      simp only [hr]
      simpa using hnoup fn hfn r hr
  · split
    · next h2 =>
      exfalso
      apply h2
      refine List.filter_eq_nil_iff.mpr ?_
      intro fn hfn
      rw [har]
      cases hr : lookupA st.activeRecordings fn with
      | none => simp
      | some r =>
        simp only [hr, hels, hreply, List.any_nil]
        simp
    · next h2 =>
      rw [hcf, if_pos hne]
      split
      · next h3 =>
        exfalso
        apply h3
        refine List.filter_eq_nil_iff.mpr ?_
        intro fn hfn
        rw [hru fn]
        simp [hnorecent fn hfn]
      · rfl

/-- C4: the pending-attribution cache round-trip.  (1) A privileged
sender's message with no explicit target, arriving while no session of
the room is recently active, is stored in the cache unlinked
(`relatedFiles = []`) and appends to no record.  (2) When the uploader
of the room's active file then speaks within the recency window, every
cached (unlinked, in-window) message of the channel is written into that
file's record in original cache order — after the uploader's own message
— and the cache is emptied.  (3) A cached entry whose age exceeds the
recency window is discarded by the cleanup sweep. -/
theorem pendingCache_stores_flushes_in_order_and_expires :
    (∀ (st : IdxState) (config : Config) (now : Nat) (s : IdxSession)
        (imgDl : String → Bool),
      isUserWhitelisted s.userId config = true →
      s.elements = [] →
      getActiveFilesInChannel st s.channelId ≠ [] →
      (∀ fn ∈ getActiveFilesInChannel st s.channelId, ∀ rec,
        lookupA st.activeRecordings fn = some rec → rec.uploaderUserId ≠ s.userId) →
      (∀ fn ∈ getActiveFilesInChannel st s.channelId,
        isFileUploaderRecentlyActive st now fn = false) →
      lookupA (recordMessage st config now s imgDl).whitelistMessageCache
          (getMessageKey s now)
        = some ⟨⟨s.content, s.userId⟩, now, []⟩ ∧
      (recordMessage st config now s imgDl).records = st.records) ∧
    (∀ (st : IdxState) (config : Config) (now : Nat) (s : IdxSession)
        (imgDl : String → Bool) (fn : String) (rec : Recording),
      getActiveFilesInChannel st s.channelId = [fn] →
      lookupA st.activeRecordings fn = some rec →
      rec.uploaderUserId = s.userId →
      s.elements = [] →
      s.content ≠ "" →
      (∀ p ∈ st.whitelistMessageCache,
        p.2.relatedFiles = [] ∧ strStartsWith p.1 (s.channelId ++ "_") = true) →
      st.whitelistMessageCache.Pairwise (fun a b => a.2.timestamp ≤ b.2.timestamp) →
      (recordMessage st config now s imgDl).whitelistMessageCache = [] ∧
      lookupA (recordMessage st config now s imgDl).records fn
        = (lookupA st.records fn).map (fun ms =>
            ms ++ MessageRecord.mk s.content s.userId ::
              (cleanupExpiredCache st now).whitelistMessageCache.map
                (fun p => p.2.message))) ∧
    (∀ (st : IdxState) (now : Nat) (key : String) (e : CacheEntry),
      (st.whitelistMessageCache.map Prod.fst).Nodup →
      lookupA st.whitelistMessageCache key = some e →
      e.relatedFiles = [] →
      UPLOADER_MESSAGE_WINDOW < now - e.timestamp →
      lookupA (cleanupExpiredCache st now).whitelistMessageCache key = none) := by
  refine ⟨?_, ?_, ?_⟩
  · intro st config now s imgDl hwl hels hne hnoup hnorecent
    rw [recordMessage_caches_unattributed st config now s imgDl hwl hels hne
      hnoup hnorecent]
    exact ⟨lookupA_setA_self _ _ _, rfl⟩
  · intro st config now s imgDl fn rec hch hrec hupl hels hcont hcache hsorted
    rw [recordMessage_uploader_branch st config now s imgDl fn rec hch hrec hupl hels]
    have hclc : (cleanupExpiredCache st now).whitelistMessageCache
        = st.whitelistMessageCache.filter
            (fun p => !(decide (UPLOADER_MESSAGE_WINDOW < now - p.2.timestamp))) := rfl
    have hcacheC : ∀ p ∈ (cleanupExpiredCache st now).whitelistMessageCache,
        strStartsWith p.1 (s.channelId ++ "_") = true ∧ p.2.relatedFiles = []
        ∧ now - p.2.timestamp ≤ UPLOADER_MESSAGE_WINDOW := by
      intro p hp
      rw [hclc] at hp
      have hmem := List.mem_filter.mp hp
      have hw : now - p.2.timestamp ≤ UPLOADER_MESSAGE_WINDOW := by
        have := hmem.2
        simp only [Bool.not_eq_true', decide_eq_false_iff_not] at this
        exact Nat.not_lt.mp this
      exact ⟨(hcache p hmem.1).2, (hcache p hmem.1).1, hw⟩
    have hsortedC : (cleanupExpiredCache st now).whitelistMessageCache.Pairwise
        (fun a b => a.2.timestamp ≤ b.2.timestamp) := by
      rw [hclc]
      exact hsorted.filter _
    exact processUploaderFile_flushes (cleanupExpiredCache st now) s imgDl now fn rec
      hrec hels hcont hcacheC hsortedC
  · intro st now key e hnd hlook _ hexp
    have hclc : (cleanupExpiredCache st now).whitelistMessageCache
        = st.whitelistMessageCache.filter
            (fun p => !(decide (UPLOADER_MESSAGE_WINDOW < now - p.2.timestamp))) := rfl
    rw [hclc, lookupA_filter_window _ _ _ hnd, hlook]
    simp [hexp]

/-- Concrete recording and states for the C4 witness. -/
def wrecA : Recording := ⟨"f.zip", "U1", "c", 0, none⟩

def wst4 : IdxState :=
  ⟨[("f.zip", wrecA)], [("c", ["f.zip"])], [], [], [("f.zip", [])], ["f.zip.json"]⟩

def wstB : IdxState :=
  { wst4 with whitelistMessageCache :=
      [("c_W_m1", ⟨⟨"please send log", "W"⟩, 100, []⟩)] }

/-- Witness for C4: a helper message cached at t=100, flushed behind the
uploader's own message when the uploader speaks at t=200, and discarded
by the sweep once its age exceeds the window. -/
theorem pendingCache_stores_flushes_in_order_and_expires_witness :
    lookupA (recordMessage wst4 ⟨["W"], []⟩ 100
        ⟨"c", "W", "m1", "please send log", []⟩
        (fun _ => true)).whitelistMessageCache "c_W_m1"
      = some ⟨⟨"please send log", "W"⟩, 100, []⟩ ∧
    (recordMessage wstB ⟨["W"], []⟩ 200 ⟨"c", "U1", "m3", "here", []⟩
      (fun _ => true)).whitelistMessageCache = [] ∧
    lookupA (recordMessage wstB ⟨["W"], []⟩ 200 ⟨"c", "U1", "m3", "here", []⟩
        (fun _ => true)).records "f.zip"
      = (lookupA wstB.records "f.zip").map (fun ms =>
          ms ++ MessageRecord.mk "here" "U1" ::
            (cleanupExpiredCache wstB 200).whitelistMessageCache.map
              (fun p => p.2.message)) ∧
    lookupA (cleanupExpiredCache wstB 400101).whitelistMessageCache "c_W_m1" = none :=
  ⟨(pendingCache_stores_flushes_in_order_and_expires.1 wst4 ⟨["W"], []⟩ 100
      ⟨"c", "W", "m1", "please send log", []⟩ (fun _ => true) (by decide) (by decide)
      (by decide)
      (by
        intro fn hfn rec hr
        have hfn2 : fn = "f.zip" := by
          simpa [wst4, getActiveFilesInChannel, lookupA, wrecA] using hfn
        subst hfn2
        have h0 : lookupA wst4.activeRecordings "f.zip" = some wrecA := by decide
        rw [h0] at hr
        have hrec2 : rec = wrecA := (Option.some.inj hr).symm
        subst hrec2
        decide)
      (by decide)).1,
   (pendingCache_stores_flushes_in_order_and_expires.2.1 wstB ⟨["W"], []⟩ 200
      ⟨"c", "U1", "m3", "here", []⟩ (fun _ => true) "f.zip" wrecA (by decide) (by decide)
      (by decide) (by decide) (by decide) (by decide) (by decide)).1,
   (pendingCache_stores_flushes_in_order_and_expires.2.1 wstB ⟨["W"], []⟩ 200
      ⟨"c", "U1", "m3", "here", []⟩ (fun _ => true) "f.zip" wrecA (by decide) (by decide)
      (by decide) (by decide) (by decide) (by decide) (by decide)).2,
   pendingCache_stores_flushes_in_order_and_expires.2.2 wstB 400101 "c_W_m1"
     ⟨⟨"please send log", "W"⟩, 100, []⟩ (by decide) (by decide) (by decide) (by decide)⟩
